import Mathlib

/- Shallow embedding of `src/resource_provider/manager.cpp` (the resource
provider manager of Apache Mesos).

Modelling conventions:
- `hashmap` fields become association lists (`List (key × value)`), looked up
  with `alookup` (first binding wins, as in a map the code keeps key-unique);
  `hashmap::put` replaces the binding in place or appends a new one.
- `process::http::Pipe::Writer` becomes `HttpConnection.isOpen` plus a log
  `written` of the events successfully written; `write` fails exactly when the
  pipe is no longer open.
- Promises (`Owned<Promise<Nothing>>`) live in a heap `ManagerState.promises`
  keyed by `PromiseId`; sessions reference them by id so that a completed or
  failed promise stays observable after it is erased from a session map.
- `Owned<ResourceProvider>` destruction (`~ResourceProvider`) is modelled by
  `ManagerState.destroy`, which closes the connection, fails the pending
  publish promises and moves the dead session to the `terminated` graveyard.
- Randomness (stream ids, provider ids, publish UUIDs, instance addresses) is
  passed in as explicit parameters.
- Fatal paths (`CHECK` failures, `LOG(FATAL)`, `hashmap::at` on a missing key)
  make an operation return `none`.
- External collaborators (protobuf/JSON parsing, `acceptsMediaType`, the
  v1/internal `devolve`/`evolve` translation, `process::collect`) appear as
  request attributes or as explicit contract definitions (`collectOutcome`).
-/

/-- `ResourceProviderID.value` from the protobuf message. -/
abbrev ResourceProviderID := String

/-- Identity of one `Promise<Nothing>` object in the promise heap. -/
abbrev PromiseId := Nat

/-- Observable state of a single-shot completion handle
(`Promise<Nothing>` / its `Future`). -/
inductive PromiseState
  | pending
  | ready
  | failed (msg : String)
deriving DecidableEq, Repr

/-- `Promise::set(Nothing())`: completes the promise if still pending,
otherwise a no-op. -/
def PromiseState.set : PromiseState → PromiseState
  | .pending => .ready
  | s => s

/-- `Promise::fail(msg)`: fails the promise if still pending, otherwise a
no-op. -/
def PromiseState.fail (m : String) : PromiseState → PromiseState
  | .pending => .failed m
  | s => s

/-- stout `UUID`: an opaque 128-bit value, carried as its 16 bytes. -/
structure UUID where
  bytes : List Nat
deriving DecidableEq, Repr

/-- `UUID::toBytes`. -/
def UUID.toBytes (u : UUID) : List Nat := u.bytes

/-- `UUID::fromBytes`: fails unless given exactly 16 bytes. -/
def UUID.fromBytes (bs : List Nat) : Option UUID :=
  if bs.length = 16 then some ⟨bs⟩ else none

/-- Wire content types negotiated on subscribe. -/
inductive ContentType
  | json
  | protobuf
deriving DecidableEq, Repr

def APPLICATION_PROTOBUF : String := "application/x-protobuf"

def APPLICATION_JSON : String := "application/json"

/-- `stringify(ContentType)` as used for the response Content-Type header. -/
def stringifyContentType : ContentType → String
  | .json => APPLICATION_JSON
  | .protobuf => APPLICATION_PROTOBUF

/-- A `Resource`: the manager only inspects the optional `provider_id`; the
rest of the payload is opaque. -/
structure Resource where
  providerId : Option ResourceProviderID
  payload : String
deriving DecidableEq, Repr

/-- `ResourceProviderInfo`: type, name, optional ID. -/
structure ResourceProviderInfo where
  rpType : String
  name : String
  id : Option ResourceProviderID
deriving DecidableEq, Repr, Inhabited

/-- `stringify` of a (possibly unset) `ResourceProviderID` protobuf field:
the protobuf getter yields the default (empty) value when unset. -/
def stringifyId (i : Option ResourceProviderID) : String := i.getD ""

/-- Outbound `Event` to a resource provider (internal form; `evolve` to the
v1 wire form is a structure-preserving external translation). -/
inductive Event
  | subscribed (providerId : ResourceProviderID)
  | applyOfferOperation (frameworkId : String) (info : String)
      (operationUuid : List Nat) (resourceVersionUuid : List Nat)
  | acknowledgeOfferOperation (statusUuid : List Nat) (operationUuid : List Nat)
  | reconcileOfferOperations (operationUuids : List (List Nat))
  | publishResources (uuid : List Nat) (resources : List Resource)
deriving DecidableEq, Repr

/-- `HttpConnection`: the streaming response to one subscriber.  `isOpen`
abstracts the pipe being writable (reader and writer both alive); `written`
is the ordered log of events successfully written to the stream. -/
structure HttpConnection where
  isOpen : Bool
  contentType : ContentType
  streamId : String
  written : List Event
deriving DecidableEq, Repr

/-- `HttpConnection::send`: serialize and write one event; returns whether the
write succeeded together with the updated connection. -/
def HttpConnection.send (c : HttpConnection) (e : Event) : Bool × HttpConnection :=
  if c.isOpen then (true, { c with written := c.written ++ [e] }) else (false, c)

/-- `HttpConnection::close`: close the write half. -/
def HttpConnection.close (c : HttpConnection) : HttpConnection :=
  { c with isOpen := false }

/-- `struct ResourceProvider`: one live session.  `tag` models the identity
of the heap-allocated instance (its address), distinguishing two sessions for
the same provider ID. -/
structure ResourceProvider where
  tag : Nat
  info : ResourceProviderInfo
  http : HttpConnection
  publishes : List (UUID × PromiseId)
deriving DecidableEq, Repr

/-- `ResourceProviderMessage`: what the manager enqueues for the host. -/
inductive ResourceProviderMessage
  | updateOfferOperationStatus (frameworkId : String) (status : String)
      (operationUuid : List Nat) (latestStatus : Option String)
  | updateState (info : ResourceProviderInfo) (resourceVersion : UUID)
      (resources : List Resource) (operations : List (UUID × String))
deriving DecidableEq, Repr

/-- Whole-manager state: the session registry, the promise heap, the
host-facing message queue, destroyed sessions, and the reader-closed
observers installed by `subscribe` (each records the provider ID the
observer lambda captured). -/
structure ManagerState where
  subscribed : List (ResourceProviderID × ResourceProvider)
  promises : List (PromiseId × PromiseState)
  messages : List ResourceProviderMessage
  terminated : List ResourceProvider
  observers : List ResourceProviderID
deriving DecidableEq, Repr

def ManagerState.init : ManagerState := ⟨[], [], [], [], []⟩

/-- Association-list lookup: the first binding for the key, if any. -/
def alookup {α β : Type} [DecidableEq α] (k : α) : List (α × β) → Option β
  | [] => none
  | e :: rest => if e.1 = k then some e.2 else alookup k rest

/-- Replace the value of every binding of `k` by `v` (used where the code
overwrites an existing `hashmap` entry in place). -/
def mapValueAt {α β : Type} [DecidableEq α]
    (l : List (α × β)) (k : α) (v : β) : List (α × β) :=
  l.map (fun e => if e.1 = k then (k, v) else e)

/-- `hashmap::put`: overwrite the existing binding or append a new one. -/
def hmPut {α β : Type} [DecidableEq α]
    (l : List (α × β)) (k : α) (v : β) : List (α × β) :=
  if (alookup k l).isSome then mapValueAt l k v else l ++ [(k, v)]

/-- Fail every promise whose id occurs in `pids` with message `m`
(the destructor's loop over `publishes`). -/
def failPublishes (ps : List (PromiseId × PromiseState))
    (pids : List PromiseId) (m : String) : List (PromiseId × PromiseState) :=
  ps.map (fun e => if pids.contains e.1 then (e.1, e.2.fail m) else e)

/-- Update the value bound to `k` in place by `f` (used where the code
mutates the value of an existing `hashmap` entry). -/
def mapUpdateAt {α β : Type} [DecidableEq α]
    (l : List (α × β)) (k : α) (f : β → β) : List (α × β) :=
  l.map (fun e => if e.1 = k then (e.1, f e.2) else e)

/-- Apply `f` to the promise with id `pid`. -/
def setPromise (ps : List (PromiseId × PromiseState)) (pid : PromiseId)
    (f : PromiseState → PromiseState) : List (PromiseId × PromiseState) :=
  mapUpdateAt ps pid f

/-- The error used by `~ResourceProvider` to fail pending publishes. -/
def connectionClosedMessage (info : ResourceProviderInfo) : String :=
  "Failed to publish resources from resource provider " ++
    stringifyId info.id ++ ": Connection closed"

/-- `~ResourceProvider` (run when an `Owned<ResourceProvider>` is replaced or
erased): close the connection and fail every pending publish with a
connection-closed error; the dead session is kept in `terminated` so its
final state stays observable. -/
def ManagerState.destroy (st : ManagerState) (rp : ResourceProvider) : ManagerState :=
  { st with
    promises :=
      failPublishes st.promises (rp.publishes.map (fun e => e.2))
        (connectionClosedMessage rp.info),
    terminated := st.terminated ++ [{ rp with http := rp.http.close }] }

/-- `resourceProviders.subscribed.put(rid, rp)`: replacing an existing entry
destroys the prior `Owned<ResourceProvider>`. -/
def ManagerState.putSubscribed (st : ManagerState) (rid : ResourceProviderID)
    (rp : ResourceProvider) : ManagerState :=
  match alookup rid st.subscribed with
  | some old =>
    let st1 := st.destroy old
    { st1 with subscribed := mapValueAt st1.subscribed rid rp }
  | none => { st with subscribed := st.subscribed ++ [(rid, rp)] }

/-- `resourceProviders.subscribed.erase(rid)`: destroys the owned session. -/
def ManagerState.eraseSubscribed (st : ManagerState)
    (rid : ResourceProviderID) : ManagerState :=
  match alookup rid st.subscribed with
  | some old =>
    let st1 := st.destroy old
    { st1 with subscribed := st1.subscribed.filter (fun e => decide (e.1 ≠ rid)) }
  | none => st

/-- Send one event to the session registered under `rid`, recording the
write on its connection (`resourceProvider->http.send(event)`; a failed send
is only logged). -/
def sendToProvider (st : ManagerState) (rid : ResourceProviderID)
    (ev : Event) : ManagerState :=
  match alookup rid st.subscribed with
  | none => st
  | some rp =>
    let r := rp.http.send ev
    { st with subscribed := mapValueAt st.subscribed rid { rp with http := r.2 } }

/-- `Call::UpdatePublishResourcesStatus::Status`. -/
inductive PublishStatus
  | UNKNOWN
  | OK
  | FAILED
deriving DecidableEq, Repr, Inhabited

/-- `stringify` of the publish status enum. -/
def stringifyPublishStatus : PublishStatus → String
  | .UNKNOWN => "UNKNOWN"
  | .OK => "OK"
  | .FAILED => "FAILED"

/-- `Call::Type`. -/
inductive CallType
  | UNKNOWN
  | SUBSCRIBE
  | UPDATE_OFFER_OPERATION_STATUS
  | UPDATE_STATE
  | UPDATE_PUBLISH_RESOURCES_STATUS
deriving DecidableEq, Repr, Inhabited

/-- `Call::Subscribe`. -/
structure CallSubscribe where
  resourceProviderInfo : ResourceProviderInfo
deriving DecidableEq, Repr, Inhabited

/-- `Call::UpdateOfferOperationStatus`; the status payload is opaque here. -/
structure CallUpdateOfferOperationStatus where
  frameworkId : String
  status : String
  operationUuid : List Nat
  latestStatus : Option String
deriving DecidableEq, Repr, Inhabited

/-- One `OfferOperation` inside an `UpdateState` call. -/
structure UpdateStateOperation where
  operationUuid : List Nat
  payload : String
deriving DecidableEq, Repr, Inhabited

/-- `Call::UpdateState`. -/
structure CallUpdateState where
  resources : List Resource
  resourceVersionUuid : List Nat
  operations : List UpdateStateOperation
deriving DecidableEq, Repr, Inhabited

/-- `Call::UpdatePublishResourcesStatus`. -/
structure CallUpdatePublishResourcesStatus where
  uuid : List Nat
  status : PublishStatus
deriving DecidableEq, Repr, Inhabited

/-- The (devolved, internal) `resource_provider::Call` protobuf message:
a type tag, an optional resource provider ID and the optional per-type
payloads. -/
structure Call where
  callType : CallType
  resourceProviderId : Option ResourceProviderID
  subscribe : Option CallSubscribe
  updateOfferOperationStatus : Option CallUpdateOfferOperationStatus
  updateState : Option CallUpdateState
  updatePublishResourcesStatus : Option CallUpdatePublishResourcesStatus
deriving DecidableEq, Repr, Inhabited

/-- Modelled from the spec: the call validator lives in
`resource_provider/validation.cpp`, which is not part of this source tree;
the spec says validation checks that required fields are present
("required fields present, IDs well-formed"; validation failure is a
bad request).  We require the payload matching the call type to be set. -/
def validate (c : Call) : Option String :=
  match c.callType with
  | .UNKNOWN => none
  | .SUBSCRIBE =>
    if c.subscribe.isSome then none
    else some "Expecting \x27subscribe\x27 to be present"
  | .UPDATE_OFFER_OPERATION_STATUS =>
    if c.updateOfferOperationStatus.isSome then none
    else some "Expecting \x27update_offer_operation_status\x27 to be present"
  | .UPDATE_STATE =>
    if c.updateState.isSome then none
    else some "Expecting \x27update_state\x27 to be present"
  | .UPDATE_PUBLISH_RESOURCES_STATUS =>
    if c.updatePublishResourcesStatus.isSome then none
    else some "Expecting \x27update_publish_resources_status\x27 to be present"

/-- Outcome of the external JSON parsing chain (`JSON::parse` followed by
`protobuf::parse<v1::resource_provider::Call>`). -/
inductive JsonParseOutcome
  | jsonError (e : String)
  | protoError (e : String)
  | parsed (c : Call)
deriving DecidableEq, Repr

/-- One inbound HTTP request, together with the outcomes of the external
collaborators evaluated on it: protobuf parse of the body, the JSON parsing
chain (both already devolved to the internal `Call` form), and
`request.acceptsMediaType` for the two supported media types. -/
structure Request where
  method : String
  headers : List (String × String)
  pbParse : Option Call
  jsonParse : JsonParseOutcome
  acceptsJson : Bool
  acceptsProtobuf : Bool
deriving DecidableEq, Repr

/-- `request.headers.get(k)`. -/
def Request.getHeader (req : Request) (k : String) : Option String :=
  alookup k req.headers

/-- The HTTP responses the `api` operation produces. -/
inductive Response
  | methodNotAllowed (allowed : List String)
  | badRequest (msg : String)
  | unsupportedMediaType (msg : String)
  | notAcceptable (msg : String)
  | okStreaming (headers : List (String × String))
  | accepted
  | notImplemented
deriving DecidableEq, Repr

/-- Status code of a response. -/
def Response.status : Response → Nat
  | .methodNotAllowed _ => 405
  | .badRequest _ => 400
  | .unsupportedMediaType _ => 415
  | .notAcceptable _ => 406
  | .okStreaming _ => 200
  | .accepted => 202
  | .notImplemented => 501

namespace ResourceProviderManagerProcess

/-- The `ResourceProviderInfo` the subscribe handler ends up with: a freshly
generated ID (`newResourceProviderId()`) when the supplied info has none,
the supplied info unchanged otherwise. -/
def assignedInfo (sub : CallSubscribe) (freshId : ResourceProviderID) :
    ResourceProviderInfo :=
  match sub.resourceProviderInfo.id with
  | none => { sub.resourceProviderInfo with id := some freshId }
  | some _ => sub.resourceProviderInfo

/-- `ResourceProviderManagerProcess::subscribe`.  `freshId` stands for
`newResourceProviderId()` and `tag` for the address of the freshly allocated
`ResourceProvider`.  A failed `SUBSCRIBED` send aborts the subscribe before
the observer is installed and before the session is inserted. -/
def subscribe (st : ManagerState) (http : HttpConnection) (sub : CallSubscribe)
    (freshId : ResourceProviderID) (tag : Nat) : ManagerState :=
  let info := assignedInfo sub freshId
  let resourceProviderId := stringifyId info.id
  let rp0 : ResourceProvider := { tag := tag, info := info, http := http, publishes := [] }
  let r := rp0.http.send (Event.subscribed resourceProviderId)
  if r.1 then
    let rp : ResourceProvider := { rp0 with http := r.2 }
    let st1 := { st with observers := st.observers ++ [resourceProviderId] }
    st1.putSubscribed resourceProviderId rp
  else st

/-- Body of the one-shot observer installed on `http.closed()` by
`subscribe`: the lambda captured only the provider ID; it `CHECK`s that some
session is registered under that ID (`none` = `CHECK` failure, the process
aborts) and erases it. -/
def fireReaderClosed (st : ManagerState) (rid : ResourceProviderID) :
    Option ManagerState :=
  let st0 := { st with observers := st.observers.erase rid }
  if (alookup rid st0.subscribed).isSome then some (st0.eraseSubscribed rid)
  else none

/-- `ResourceProviderManagerProcess::updateOfferOperationStatus`: translate
and enqueue for the host. -/
def updateOfferOperationStatus (st : ManagerState)
    (update : CallUpdateOfferOperationStatus) : ManagerState :=
  { st with messages := st.messages ++
      [ResourceProviderMessage.updateOfferOperationStatus
        update.frameworkId update.status update.operationUuid
        update.latestStatus] }

/-- `ResourceProviderManagerProcess::updateState`: `CHECK`s that each
resource names the session provider and that the UUIDs parse (`none` =
fatal), then enqueues an `UpdateState` message. -/
def updateState (st : ManagerState) (resourceProvider : ResourceProvider)
    (update : CallUpdateState) : Option ManagerState :=
  if update.resources.all
      (fun r => decide (r.providerId.getD "" = resourceProvider.info.id.getD "")) then
    match UUID.fromBytes update.resourceVersionUuid with
    | none => none
    | some resourceVersion =>
      match update.operations.mapM
          (fun op => (UUID.fromBytes op.operationUuid).map
            (fun u => (u, op.payload))) with
      | none => none
      | some ops =>
        let offerOperations := ops.foldl (fun acc e => hmPut acc e.1 e.2) []
        some { st with messages := st.messages ++
          [ResourceProviderMessage.updateState resourceProvider.info
            resourceVersion update.resources offerOperations] }
  else none

/-- `ResourceProviderManagerProcess::updatePublishResourcesStatus`: a
malformed or unknown publish UUID is logged and dropped; otherwise the
matching promise is completed (OK) or failed (any other status) and the
entry is erased from the session publish map. -/
def updatePublishResourcesStatus (st : ManagerState)
    (rid : ResourceProviderID) (resourceProvider : ResourceProvider)
    (update : CallUpdatePublishResourcesStatus) : ManagerState :=
  match UUID.fromBytes update.uuid with
  | none => st
  | some uuid =>
    match alookup uuid resourceProvider.publishes with
    | none => st
    | some pid =>
      let promises :=
        if update.status = PublishStatus.OK then
          setPromise st.promises pid PromiseState.set
        else
          setPromise st.promises pid
            (PromiseState.fail
              ("Failed to publish resources for resource provider " ++
                stringifyId resourceProvider.info.id ++ ": Received " ++
                stringifyPublishStatus update.status ++ " status"))
      let rp1 := { resourceProvider with
        publishes := resourceProvider.publishes.filter
          (fun e => decide (e.1 ≠ uuid)) }
      { st with promises := promises,
                subscribed := mapValueAt st.subscribed rid rp1 }

/-- Body parsing step of `api`: dispatch on the Content-Type header value
(exact string comparison, as in the source) to the protobuf or JSON parse
of the body, or reject the media type. -/
def parseCall (req : Request) (contentType : String) : Except Response Call :=
  if contentType = APPLICATION_PROTOBUF then
    match req.pbParse with
    | none => .error (.badRequest "Failed to parse body into Call protobuf")
    | some c => .ok c
  else if contentType = APPLICATION_JSON then
    match req.jsonParse with
    | .jsonError e =>
      .error (.badRequest ("Failed to parse body into JSON: " ++ e))
    | .protoError e =>
      .error (.badRequest ("Failed to convert JSON into Call protobuf: " ++ e))
    | .parsed c => .ok c
  else
    .error (.unsupportedMediaType
      ("Expecting \x27Content-Type\x27 of " ++ APPLICATION_JSON ++ " or " ++
        APPLICATION_PROTOBUF))

/-- Accept-header negotiation of the subscribe branch: JSON if acceptable
(also the default for an empty Accept header), else protobuf, else none. -/
def negotiateAccept (req : Request) : Option ContentType :=
  if req.acceptsJson then some ContentType.json
  else if req.acceptsProtobuf then some ContentType.protobuf
  else none

/-- The `Call::SUBSCRIBE` branch of `api`. -/
def apiSubscribeBranch (st : ManagerState) (req : Request) (call : Call)
    (freshStreamId : String) (freshProviderId : ResourceProviderID)
    (tag : Nat) : Option (Response × ManagerState) :=
  match negotiateAccept req with
  | none =>
    some (.notAcceptable
      ("Expecting \x27Accept\x27 to allow " ++ "\x27" ++
        APPLICATION_PROTOBUF ++ "\x27 or \x27" ++ APPLICATION_JSON ++ "\x27"), st)
  | some acceptType =>
    if (req.getHeader "Mesos-Stream-Id").isSome then
      some (.badRequest
        "Subscribe calls should not include the \x27Mesos-Stream-Id\x27 header", st)
    else
      some (.okStreaming
        [("Content-Type", stringifyContentType acceptType),
         ("Mesos-Stream-Id", freshStreamId)],
        subscribe st
          { isOpen := true, contentType := acceptType,
            streamId := freshStreamId, written := [] }
          (call.subscribe.getD default) freshProviderId tag)

/-- The non-subscribe branch of `api`: session lookup, stream-ID fencing,
then dispatch by call type. -/
def apiDispatch (st : ManagerState) (req : Request) (call : Call) :
    Option (Response × ManagerState) :=
  match alookup (call.resourceProviderId.getD "") st.subscribed with
  | none => some (.badRequest "Resource provider is not subscribed", st)
  | some resourceProvider =>
    match req.getHeader "Mesos-Stream-Id" with
    | none =>
      some (.badRequest
        "All non-subscribe calls should include to \x27Mesos-Stream-Id\x27 header", st)
    | some streamId =>
      if streamId ≠ resourceProvider.http.streamId then
        some (.badRequest
          ("The stream ID \x27" ++ streamId ++
            "\x27 included in this request didn\x27t match the stream ID currently associated with  resource provider ID " ++
            stringifyId resourceProvider.info.id), st)
      else
        match call.callType with
        | .UNKNOWN => some (.notImplemented, st)
        | .SUBSCRIBE => none
        | .UPDATE_OFFER_OPERATION_STATUS =>
          some (.accepted, updateOfferOperationStatus st
            (call.updateOfferOperationStatus.getD default))
        | .UPDATE_STATE =>
          (updateState st resourceProvider
            (call.updateState.getD default)).map
            (fun st1 => (.accepted, st1))
        | .UPDATE_PUBLISH_RESOURCES_STATUS =>
          some (.accepted, updatePublishResourcesStatus st
            (call.resourceProviderId.getD "") resourceProvider
            (call.updatePublishResourcesStatus.getD default))

/-- `ResourceProviderManagerProcess::api`.  `freshStreamId` stands for
`UUID::random().toString()` generated for a subscribe response,
`freshProviderId` and `tag` feed `subscribe`.  `none` models a fatal path
(`LOG(FATAL)` / failed `CHECK`). -/
def api (st : ManagerState) (req : Request) (freshStreamId : String)
    (freshProviderId : ResourceProviderID) (tag : Nat) :
    Option (Response × ManagerState) :=
  if req.method ≠ "POST" then
    some (.methodNotAllowed ["POST"], st)
  else
    match req.getHeader "Content-Type" with
    | none => some (.badRequest "Expecting \x27Content-Type\x27 to be present", st)
    | some contentType =>
      match parseCall req contentType with
      | .error resp => some (resp, st)
      | .ok call =>
        match validate call with
        | some e =>
          some (.badRequest ("Failed to validate resource_provider::Call: " ++ e), st)
        | none =>
          if call.callType = CallType.SUBSCRIBE then
            apiSubscribeBranch st req call freshStreamId freshProviderId tag
          else
            apiDispatch st req call

/-- Result of `getResourceProviderId(operation)` (external helper deriving
the owning provider ID from the operation payload): a `Result` that can be
an error, `None`, or a provider ID. -/
inductive DerivedProviderId
  | err (e : String)
  | notFound
  | found (rid : ResourceProviderID)
deriving DecidableEq, Repr

/-- The `resource_version_uuid` field: optional provider ID plus raw bytes. -/
structure ResourceVersionUuid where
  providerId : Option ResourceProviderID
  uuid : List Nat
deriving DecidableEq, Repr

/-- `ApplyOfferOperationMessage`: the operation payload is opaque; the
externally derived provider ID is carried alongside. -/
structure ApplyOfferOperationMessage where
  frameworkId : String
  operationInfo : String
  operationUuid : List Nat
  resourceVersionUuid : ResourceVersionUuid
  derivedProviderId : DerivedProviderId
deriving DecidableEq, Repr

/-- `ResourceProviderManagerProcess::applyOfferOperation`: drop on a
malformed UUID, an underivable provider ID or an unsubscribed provider;
`CHECK` that the resource version UUID names the same provider (`none` =
fatal); then send an `APPLY_OFFER_OPERATION` event. -/
def applyOfferOperation (st : ManagerState)
    (message : ApplyOfferOperationMessage) : Option ManagerState :=
  match UUID.fromBytes message.operationUuid with
  | none => some st
  | some _ =>
    match message.derivedProviderId with
    | .err _ => some st
    | .notFound => some st
    | .found resourceProviderId =>
      if (alookup resourceProviderId st.subscribed).isSome then
        if message.resourceVersionUuid.providerId = some resourceProviderId then
          some (sendToProvider st resourceProviderId
            (Event.applyOfferOperation message.frameworkId
              message.operationInfo message.operationUuid
              message.resourceVersionUuid.uuid))
        else none
      else some st

/-- `OfferOperationUpdateAcknowledgementMessage`. -/
structure OfferOperationUpdateAcknowledgementMessage where
  resourceProviderId : Option ResourceProviderID
  statusUuid : List Nat
  operationUuid : List Nat
deriving DecidableEq, Repr

/-- `ResourceProviderManagerProcess::acknowledgeOfferOperationUpdate`:
`CHECK`s the provider ID is present (`none` = fatal), drops with a warning
when the provider is not subscribed, else sends an
`ACKNOWLEDGE_OFFER_OPERATION` event. -/
def acknowledgeOfferOperationUpdate (st : ManagerState)
    (message : OfferOperationUpdateAcknowledgementMessage) :
    Option ManagerState :=
  match message.resourceProviderId with
  | none => none
  | some resourceProviderId =>
    if (alookup resourceProviderId st.subscribed).isSome then
      some (sendToProvider st resourceProviderId
        (Event.acknowledgeOfferOperation message.statusUuid
          message.operationUuid))
    else some st

/-- One operation of a `ReconcileOfferOperationsMessage`. -/
structure ReconcileOperation where
  resourceProviderId : Option ResourceProviderID
  operationUuid : List Nat
deriving DecidableEq, Repr

/-- `ReconcileOfferOperationsMessage`. -/
structure ReconcileOfferOperationsMessage where
  operations : List ReconcileOperation
deriving DecidableEq, Repr

/-- The `addOperation` lambda of `reconcileOfferOperations`: append the
operation UUID to the provider entry of the `events` map, creating the
entry with a single UUID when absent. -/
def addReconcileOperation (events : List (ResourceProviderID × List (List Nat)))
    (rid : ResourceProviderID) (uuid : List Nat) :
    List (ResourceProviderID × List (List Nat)) :=
  if (alookup rid events).isSome then
    mapUpdateAt events rid (fun uuids => uuids ++ [uuid])
  else events ++ [(rid, [uuid])]

/-- First loop of `reconcileOfferOperations`: operations without a provider
ID are skipped; operations naming an unsubscribed provider are dropped with
a warning; the rest are grouped into per-provider events. -/
def buildReconcileEvents (st : ManagerState) :
    List ReconcileOperation → List (ResourceProviderID × List (List Nat)) →
    List (ResourceProviderID × List (List Nat))
  | [], events => events
  | op :: rest, events =>
    match op.resourceProviderId with
    | none => buildReconcileEvents st rest events
    | some rid =>
      if (alookup rid st.subscribed).isSome then
        buildReconcileEvents st rest (addReconcileOperation events rid op.operationUuid)
      else
        buildReconcileEvents st rest events

/-- Second loop of `reconcileOfferOperations`: send one
`RECONCILE_OFFER_OPERATIONS` event per grouped provider (a failed send is
only logged). -/
def sendReconcileEvents :
    ManagerState → List (ResourceProviderID × List (List Nat)) → ManagerState
  | st, [] => st
  | st, e :: rest =>
    sendReconcileEvents
      (sendToProvider st e.1 (Event.reconcileOfferOperations e.2)) rest

/-- `ResourceProviderManagerProcess::reconcileOfferOperations`. -/
def reconcileOfferOperations (st : ManagerState)
    (message : ReconcileOfferOperationsMessage) : ManagerState :=
  sendReconcileEvents st (buildReconcileEvents st message.operations [])

/-- `providedResources[rid] += resource`: group a resource under its
provider. -/
def addProvidedResource (acc : List (ResourceProviderID × List Resource))
    (rid : ResourceProviderID) (r : Resource) :
    List (ResourceProviderID × List Resource) :=
  match alookup rid acc with
  | some rs => mapValueAt acc rid (rs ++ [r])
  | none => acc ++ [(rid, [r])]

/-- First loop of `publishResources`: partition the resources by provider
ID, skipping resources without one, and fail the whole call as soon as a
named provider is not subscribed. -/
def partitionResources (st : ManagerState) :
    List Resource → List (ResourceProviderID × List Resource) →
    Except String (List (ResourceProviderID × List Resource))
  | [], acc => .ok acc
  | r :: rest, acc =>
    match r.providerId with
    | none => partitionResources st rest acc
    | some rid =>
      if (alookup rid st.subscribed).isSome then
        partitionResources st rest (addProvidedResource acc rid r)
      else
        .error ("Resource provider " ++ rid ++ " is not subscribed")

/-- What `publishResources` returns: an immediate failure, or the
`collect` of the per-group publish futures (referenced by promise id). -/
inductive PublishResult
  | failure (msg : String)
  | combined (futures : List PromiseId)
deriving DecidableEq, Repr

/-- Second loop of `publishResources`: for each group generate a publish
UUID, send a `PUBLISH_RESOURCES` event (a failed send fails the whole call
immediately), then allocate a promise, record it under the UUID in the
session publish map and collect its future.  `none` models `hashmap::at` on
a missing key (unreachable from `publishResources`). -/
def sendPublishGroups (freshUuid : Nat → UUID) (freshPromise : Nat → PromiseId) :
    List (ResourceProviderID × List Resource) → Nat → ManagerState →
    List PromiseId → Option (PublishResult × ManagerState)
  | [], _, st, futures => some (.combined futures, st)
  | g :: rest, i, st, futures =>
    match alookup g.1 st.subscribed with
    | none => none
    | some resourceProvider =>
      let uuid := freshUuid i
      let r := resourceProvider.http.send
        (Event.publishResources uuid.toBytes g.2)
      if r.1 then
        let pid := freshPromise i
        let rp1 := { resourceProvider with
          http := r.2, publishes := hmPut resourceProvider.publishes uuid pid }
        let st1 := { st with
          subscribed := mapValueAt st.subscribed g.1 rp1,
          promises := st.promises ++ [(pid, PromiseState.pending)] }
        sendPublishGroups freshUuid freshPromise rest (i + 1) st1
          (futures ++ [pid])
      else
        some (.failure
          ("Failed to send PUBLISH_RESOURCES event to resource provider " ++
            g.1 ++ ": connection closed"), st)

/-- `ResourceProviderManagerProcess::publishResources`. -/
def publishResources (st : ManagerState) (resources : List Resource)
    (freshUuid : Nat → UUID) (freshPromise : Nat → PromiseId) :
    Option (PublishResult × ManagerState) :=
  match partitionResources st resources [] with
  | .error e => some (.failure e, st)
  | .ok groups => sendPublishGroups freshUuid freshPromise groups 0 st []

end ResourceProviderManagerProcess

/-- Contract of the external `process::collect(futures).then(...)`: given
the constituent outcomes in completion order (`none` = success, `some e` =
failure with error `e`), the combined future succeeds iff all constituents
succeed, and otherwise fails with the first reported error. -/
def collectOutcome (cs : List (Option String)) : Option String :=
  cs.findSome? id

open ResourceProviderManagerProcess in
/-- One actor turn of the manager: any of its operations, with the
environment choosing the request, message, fresh identifiers, or which
installed reader-closed observer fires.  Fatal paths produce no step. -/
inductive Step : ManagerState → ManagerState → Prop
  | api (st : ManagerState) (req : Request) (freshStreamId : String)
      (freshProviderId : ResourceProviderID) (tag : Nat)
      (resp : Response) (st1 : ManagerState) :
      ResourceProviderManagerProcess.api st req freshStreamId freshProviderId tag =
        some (resp, st1) → Step st st1
  | applyOp (st : ManagerState) (message : ApplyOfferOperationMessage)
      (st1 : ManagerState) :
      ResourceProviderManagerProcess.applyOfferOperation st message = some st1 →
      Step st st1
  | ackOp (st : ManagerState)
      (message : OfferOperationUpdateAcknowledgementMessage)
      (st1 : ManagerState) :
      ResourceProviderManagerProcess.acknowledgeOfferOperationUpdate st message =
        some st1 → Step st st1
  | reconcileOp (st : ManagerState) (message : ReconcileOfferOperationsMessage) :
      Step st (ResourceProviderManagerProcess.reconcileOfferOperations st message)
  | publishOp (st : ManagerState) (resources : List Resource)
      (freshUuid : Nat → UUID) (freshPromise : Nat → PromiseId)
      (res : PublishResult) (st1 : ManagerState) :
      ResourceProviderManagerProcess.publishResources st resources freshUuid
        freshPromise = some (res, st1) → Step st st1
  | readerClosed (st : ManagerState) (rid : ResourceProviderID)
      (st1 : ManagerState) :
      rid ∈ st.observers →
      ResourceProviderManagerProcess.fireReaderClosed st rid = some st1 →
      Step st st1

/-- States the manager can be in, starting from the empty state. -/
def Reachable (st : ManagerState) : Prop :=
  Relation.ReflTransGen Step ManagerState.init st
/-! ### Association-list lemmas -/

theorem alookup_append_of_none {α β : Type} [DecidableEq α] (k : α)
    (l l2 : List (α × β)) (h : alookup k l = none) :
    alookup k (l ++ l2) = alookup k l2 := by
  induction l with
  | nil => rfl
  | cons e rest ih =>
    simp only [alookup, List.cons_append] at h ⊢
    split at h
    · exact absurd h (by simp)
    · rename_i hne
      rw [if_neg hne]
      exact ih h

theorem alookup_append_of_some {α β : Type} [DecidableEq α] (k : α)
    (l l2 : List (α × β)) (v : β) (h : alookup k l = some v) :
    alookup k (l ++ l2) = some v := by
  induction l with
  | nil => simp [alookup] at h
  | cons e rest ih =>
    simp only [alookup, List.cons_append] at h ⊢
    split at h
    · rename_i heq
      rw [if_pos heq]
      exact h
    · rename_i hne
      rw [if_neg hne]
      exact ih h

theorem alookup_eq_none_iff {α β : Type} [DecidableEq α] (k : α)
    (l : List (α × β)) : alookup k l = none ↔ k ∉ l.map Prod.fst := by
  induction l with
  | nil => simp [alookup]
  | cons e rest ih =>
    simp only [alookup, List.map_cons, List.mem_cons]
    split
    · simp_all
    · simp_all [eq_comm]

theorem alookup_mapValueAt {α β : Type} [DecidableEq α] (l : List (α × β))
    (k k' : α) (v : β) :
    alookup k' (mapValueAt l k v) =
      if k' = k then (alookup k l).map (fun _ => v) else alookup k' l := by
  induction l with
  | nil => simp [alookup, mapValueAt]
  | cons e rest ih =>
    simp only [mapValueAt, List.map_cons] at ih ⊢
    by_cases h1 : e.1 = k
    · subst h1
      by_cases h2 : k' = e.1
      · subst h2
        simp [alookup, ih]
      · have h3 : ¬ e.1 = k' := fun h => h2 h.symm
        simp [alookup, h2, h3, ih]
    · by_cases h2 : k' = k
      · subst h2
        simp [alookup, h1, ih]
      · by_cases h3 : e.1 = k'
        · simp [alookup, h1, h3, h2]
        · simp [alookup, h1, h3, h2, ih]

theorem keys_mapValueAt {α β : Type} [DecidableEq α] (l : List (α × β))
    (k : α) (v : β) :
    (mapValueAt l k v).map Prod.fst = l.map Prod.fst := by
  induction l with
  | nil => rfl
  | cons e rest ih =>
    simp only [mapValueAt, List.map_cons] at ih ⊢
    by_cases h : e.1 = k <;> simp [h, ih]

theorem alookup_filter_ne {α β : Type} [DecidableEq α] (l : List (α × β))
    (k k' : α) :
    alookup k' (l.filter (fun e => decide (e.1 ≠ k))) =
      if k' = k then none else alookup k' l := by
  induction l with
  | nil => simp [alookup]
  | cons e rest ih =>
    rw [List.filter_cons]
    by_cases h1 : e.1 = k
    · rw [if_neg (by simp [h1]), ih]
      by_cases h2 : k' = k
      · simp [h2]
      · have h3 : ¬ e.1 = k' := by
          rw [h1]
          exact fun h => h2 h.symm
        simp only [alookup, if_neg h2, if_neg h3]
    · rw [if_pos (by simp [h1])]
      simp only [alookup]
      by_cases h3 : e.1 = k'
      · have h2 : ¬ k' = k := fun hk => h1 (h3.trans hk)
        rw [if_pos h3, if_neg h2, if_pos h3]
      · rw [if_neg h3, ih]
        by_cases h2 : k' = k
        · simp [h2]
        · rw [if_neg h2, if_neg h2, if_neg h3]

/-! ### Manager-state operation lemmas -/

open ResourceProviderManagerProcess

theorem destroy_subscribed (st : ManagerState) (rp : ResourceProvider) :
    (st.destroy rp).subscribed = st.subscribed := rfl

theorem destroy_messages (st : ManagerState) (rp : ResourceProvider) :
    (st.destroy rp).messages = st.messages := rfl

theorem destroy_observers (st : ManagerState) (rp : ResourceProvider) :
    (st.destroy rp).observers = st.observers := rfl

theorem putSubscribed_alookup (st : ManagerState) (rid : ResourceProviderID)
    (rp : ResourceProvider) (k : ResourceProviderID) :
    alookup k (st.putSubscribed rid rp).subscribed =
      if k = rid then some rp else alookup k st.subscribed := by
  unfold ManagerState.putSubscribed
  cases h : alookup rid st.subscribed with
  | some old =>
    simp only [destroy_subscribed, alookup_mapValueAt, h]
    by_cases hk : k = rid <;> simp [hk]
  | none =>
    by_cases hk : k = rid
    · subst hk
      simp only [if_pos rfl]
      rw [alookup_append_of_none _ _ _ h]
      simp [alookup]
    · rw [if_neg hk]
      cases hv : alookup k st.subscribed with
      | some v => exact alookup_append_of_some _ _ _ _ hv
      | none =>
        rw [alookup_append_of_none _ _ _ hv]
        have hk2 : ¬ rid = k := fun h2 => hk h2.symm
        simp [alookup, hk2]

theorem putSubscribed_keys_nodup (st : ManagerState) (rid : ResourceProviderID)
    (rp : ResourceProvider) (h : (st.subscribed.map Prod.fst).Nodup) :
    ((st.putSubscribed rid rp).subscribed.map Prod.fst).Nodup := by
  unfold ManagerState.putSubscribed
  cases hl : alookup rid st.subscribed with
  | some old => simpa only [destroy_subscribed, keys_mapValueAt] using h
  | none =>
    have hmem : rid ∉ st.subscribed.map Prod.fst :=
      (alookup_eq_none_iff _ _).mp hl
    simp [List.nodup_append, h, hmem]

theorem eraseSubscribed_alookup (st : ManagerState) (rid : ResourceProviderID)
    (k : ResourceProviderID) :
    alookup k (st.eraseSubscribed rid).subscribed =
      if k = rid then none else alookup k st.subscribed := by
  unfold ManagerState.eraseSubscribed
  cases h : alookup rid st.subscribed with
  | some old => simp only [destroy_subscribed, alookup_filter_ne]
  | none =>
    by_cases hk : k = rid
    · subst hk
      simp [h]
    · simp [hk]

theorem eraseSubscribed_keys_sublist (st : ManagerState)
    (rid : ResourceProviderID) :
    ((st.eraseSubscribed rid).subscribed.map Prod.fst).Sublist
      (st.subscribed.map Prod.fst) := by
  unfold ManagerState.eraseSubscribed
  cases h : alookup rid st.subscribed with
  | some old =>
    simp only [destroy_subscribed]
    exact (List.filter_sublist _).map Prod.fst
  | none => exact List.Sublist.refl _

theorem sendToProvider_alookup (st : ManagerState) (rid : ResourceProviderID)
    (ev : Event) (k : ResourceProviderID) :
    alookup k (sendToProvider st rid ev).subscribed =
      if k = rid then
        (alookup rid st.subscribed).map
          (fun rp => { rp with http := (rp.http.send ev).2 })
      else alookup k st.subscribed := by
  unfold sendToProvider
  cases h : alookup rid st.subscribed with
  | none =>
    by_cases hk : k = rid
    · subst hk
      simp [h]
    · simp [hk]
  | some rp =>
    simp only [alookup_mapValueAt, h]
    by_cases hk : k = rid <;> simp [hk]

theorem sendToProvider_keys (st : ManagerState) (rid : ResourceProviderID)
    (ev : Event) :
    (sendToProvider st rid ev).subscribed.map Prod.fst =
      st.subscribed.map Prod.fst := by
  unfold sendToProvider
  cases h : alookup rid st.subscribed with
  | none => rfl
  | some rp => simp only [keys_mapValueAt]

theorem sendToProvider_promises (st : ManagerState) (rid : ResourceProviderID)
    (ev : Event) : (sendToProvider st rid ev).promises = st.promises := by
  unfold sendToProvider
  cases alookup rid st.subscribed <;> rfl

theorem sendToProvider_messages (st : ManagerState) (rid : ResourceProviderID)
    (ev : Event) : (sendToProvider st rid ev).messages = st.messages := by
  unfold sendToProvider
  cases alookup rid st.subscribed <;> rfl

theorem sendToProvider_observers (st : ManagerState) (rid : ResourceProviderID)
    (ev : Event) : (sendToProvider st rid ev).observers = st.observers := by
  unfold sendToProvider
  cases alookup rid st.subscribed <;> rfl

theorem sendToProvider_terminated (st : ManagerState) (rid : ResourceProviderID)
    (ev : Event) : (sendToProvider st rid ev).terminated = st.terminated := by
  unfold sendToProvider
  cases alookup rid st.subscribed <;> rfl

/-! ### Send and subscribe characterizations -/

theorem send_fst (c : HttpConnection) (e : Event) :
    (c.send e).1 = c.isOpen := by
  unfold HttpConnection.send
  cases c.isOpen <;> simp

theorem send_snd_open (c : HttpConnection) (e : Event) (h : c.isOpen = true) :
    (c.send e).2 = { c with written := c.written ++ [e] } := by
  unfold HttpConnection.send
  simp [h]

theorem send_snd_closed (c : HttpConnection) (e : Event) (h : c.isOpen = false) :
    (c.send e).2 = c := by
  unfold HttpConnection.send
  simp [h]

/-- Closed form of `subscribe`: on an open connection the `SUBSCRIBED` event
is written, an observer is installed and the session is put into the
registry; on a closed connection the state is returned unchanged. -/
theorem subscribe_eq (st : ManagerState) (http : HttpConnection)
    (sub : CallSubscribe) (freshId : ResourceProviderID) (tag : Nat) :
    ResourceProviderManagerProcess.subscribe st http sub freshId tag =
      if http.isOpen then
        ({ st with observers :=
            st.observers ++ [stringifyId (assignedInfo sub freshId).id] }).putSubscribed
          (stringifyId (assignedInfo sub freshId).id)
          { tag := tag, info := assignedInfo sub freshId,
            http := { http with written :=
              http.written ++ [Event.subscribed (stringifyId (assignedInfo sub freshId).id)] },
            publishes := [] }
      else st := by
  unfold ResourceProviderManagerProcess.subscribe
  cases h : http.isOpen with
  | false => simp [HttpConnection.send, h]
  | true => simp [HttpConnection.send, h]

/-- Closed form of the reader-closed observer body. -/
theorem fireReaderClosed_eq (st : ManagerState) (rid : ResourceProviderID) :
    fireReaderClosed st rid =
      if (alookup rid st.subscribed).isSome then
        some (({ st with observers := st.observers.erase rid }).eraseSubscribed rid)
      else none := rfl

/-! ### Registry well-formedness: at most one session per provider ID -/

/-- The registry binds each provider ID at most once. -/
def RegistryWF (st : ManagerState) : Prop :=
  (st.subscribed.map Prod.fst).Nodup

theorem subscribe_registryWF (st : ManagerState) (http : HttpConnection)
    (sub : CallSubscribe) (freshId : ResourceProviderID) (tag : Nat)
    (h : RegistryWF st) :
    RegistryWF (ResourceProviderManagerProcess.subscribe st http sub freshId tag) := by
  rw [subscribe_eq]
  split
  · exact putSubscribed_keys_nodup _ _ _ h
  · exact h

theorem fireReaderClosed_registryWF (st : ManagerState)
    (rid : ResourceProviderID) (st1 : ManagerState)
    (h : fireReaderClosed st rid = some st1) (hwf : RegistryWF st) :
    RegistryWF st1 := by
  rw [fireReaderClosed_eq] at h
  split at h
  · simp only [Option.some.injEq] at h
    subst h
    exact List.Nodup.sublist (eraseSubscribed_keys_sublist _ _) hwf
  · exact absurd h (by simp)

theorem updateOfferOperationStatus_subscribed (st : ManagerState)
    (u : CallUpdateOfferOperationStatus) :
    (updateOfferOperationStatus st u).subscribed = st.subscribed := rfl

theorem updateState_some (st : ManagerState) (rp : ResourceProvider)
    (u : CallUpdateState) (st1 : ManagerState)
    (h : updateState st rp u = some st1) :
    ∃ m, st1 = { st with messages := st.messages ++ [m] } := by
  unfold ResourceProviderManagerProcess.updateState at h
  split at h
  · split at h
    · exact absurd h (by simp)
    · split at h
      · exact absurd h (by simp)
      · simp only [Option.some.injEq] at h
        exact ⟨_, h.symm⟩
  · exact absurd h (by simp)

theorem updatePublishResourcesStatus_keys (st : ManagerState)
    (rid : ResourceProviderID) (rp : ResourceProvider)
    (u : CallUpdatePublishResourcesStatus) :
    (updatePublishResourcesStatus st rid rp u).subscribed.map Prod.fst =
      st.subscribed.map Prod.fst := by
  unfold ResourceProviderManagerProcess.updatePublishResourcesStatus
  split
  · rfl
  · split
    · rfl
    · simp only [keys_mapValueAt]

theorem apiSubscribeBranch_registryWF {st : ManagerState} {req : Request}
    {call : Call} {a : String} {b : ResourceProviderID} {c : Nat}
    {resp : Response} {st1 : ManagerState}
    (h : apiSubscribeBranch st req call a b c = some (resp, st1))
    (hwf : RegistryWF st) : RegistryWF st1 := by
  unfold apiSubscribeBranch at h
  split at h
  · simp only [Option.some.injEq, Prod.mk.injEq] at h
    rw [← h.2]
    exact hwf
  · split at h
    · simp only [Option.some.injEq, Prod.mk.injEq] at h
      rw [← h.2]
      exact hwf
    · simp only [Option.some.injEq, Prod.mk.injEq] at h
      rw [← h.2]
      exact subscribe_registryWF _ _ _ _ _ hwf

theorem apiDispatch_registryWF {st : ManagerState} {req : Request}
    {call : Call} {resp : Response} {st1 : ManagerState}
    (h : apiDispatch st req call = some (resp, st1))
    (hwf : RegistryWF st) : RegistryWF st1 := by
  unfold apiDispatch at h
  split at h
  · simp only [Option.some.injEq, Prod.mk.injEq] at h
    rw [← h.2]
    exact hwf
  · split at h
    · simp only [Option.some.injEq, Prod.mk.injEq] at h
      rw [← h.2]
      exact hwf
    · split at h
      · simp only [Option.some.injEq, Prod.mk.injEq] at h
        rw [← h.2]
        exact hwf
      · split at h
        · simp only [Option.some.injEq, Prod.mk.injEq] at h
          rw [← h.2]
          exact hwf
        · exact absurd h (by simp)
        · simp only [Option.some.injEq, Prod.mk.injEq] at h
          rw [← h.2]
          unfold RegistryWF
          rw [updateOfferOperationStatus_subscribed]
          exact hwf
        · rw [Option.map_eq_some'] at h
          obtain ⟨st2, h2, h3⟩ := h
          obtain ⟨m, hm⟩ := updateState_some _ _ _ _ h2
          simp only [Prod.mk.injEq] at h3
          rw [← h3.2, hm]
          exact hwf
        · simp only [Option.some.injEq, Prod.mk.injEq] at h
          rw [← h.2]
          unfold RegistryWF
          rw [updatePublishResourcesStatus_keys]
          exact hwf

theorem api_registryWF {st : ManagerState} {req : Request} {a : String}
    {b : ResourceProviderID} {c : Nat} {resp : Response} {st1 : ManagerState}
    (h : ResourceProviderManagerProcess.api st req a b c = some (resp, st1))
    (hwf : RegistryWF st) : RegistryWF st1 := by
  unfold ResourceProviderManagerProcess.api at h
  split at h
  · simp only [Option.some.injEq, Prod.mk.injEq] at h
    rw [← h.2]
    exact hwf
  · split at h
    · simp only [Option.some.injEq, Prod.mk.injEq] at h
      rw [← h.2]
      exact hwf
    · split at h
      · simp only [Option.some.injEq, Prod.mk.injEq] at h
        rw [← h.2]
        exact hwf
      · split at h
        · simp only [Option.some.injEq, Prod.mk.injEq] at h
          rw [← h.2]
          exact hwf
        · split at h
          · exact apiSubscribeBranch_registryWF h hwf
          · exact apiDispatch_registryWF h hwf

theorem applyOfferOperation_registryWF {st : ManagerState}
    {message : ApplyOfferOperationMessage} {st1 : ManagerState}
    (h : applyOfferOperation st message = some st1) (hwf : RegistryWF st) :
    RegistryWF st1 := by
  unfold ResourceProviderManagerProcess.applyOfferOperation at h
  split at h
  · simp only [Option.some.injEq] at h
    rw [← h]
    exact hwf
  · split at h
    · simp only [Option.some.injEq] at h
      rw [← h]
      exact hwf
    · simp only [Option.some.injEq] at h
      rw [← h]
      exact hwf
    · split at h
      · split at h
        · simp only [Option.some.injEq] at h
          rw [← h]
          unfold RegistryWF
          rw [sendToProvider_keys]
          exact hwf
        · exact absurd h (by simp)
      · simp only [Option.some.injEq] at h
        rw [← h]
        exact hwf

theorem acknowledgeOfferOperationUpdate_registryWF {st : ManagerState}
    {message : OfferOperationUpdateAcknowledgementMessage} {st1 : ManagerState}
    (h : acknowledgeOfferOperationUpdate st message = some st1)
    (hwf : RegistryWF st) : RegistryWF st1 := by
  unfold ResourceProviderManagerProcess.acknowledgeOfferOperationUpdate at h
  split at h
  · exact absurd h (by simp)
  · split at h
    · simp only [Option.some.injEq] at h
      rw [← h]
      unfold RegistryWF
      rw [sendToProvider_keys]
      exact hwf
    · simp only [Option.some.injEq] at h
      rw [← h]
      exact hwf

theorem sendReconcileEvents_keys (events : List (ResourceProviderID × List (List Nat)))
    (st : ManagerState) :
    (sendReconcileEvents st events).subscribed.map Prod.fst =
      st.subscribed.map Prod.fst := by
  induction events generalizing st with
  | nil => rfl
  | cons e rest ih =>
    unfold sendReconcileEvents
    rw [ih, sendToProvider_keys]

theorem reconcileOfferOperations_registryWF (st : ManagerState)
    (message : ReconcileOfferOperationsMessage) (hwf : RegistryWF st) :
    RegistryWF (reconcileOfferOperations st message) := by
  unfold ResourceProviderManagerProcess.reconcileOfferOperations
  unfold RegistryWF
  rw [sendReconcileEvents_keys]
  exact hwf

theorem sendPublishGroups_keys {freshUuid : Nat → UUID}
    {freshPromise : Nat → PromiseId}
    {groups : List (ResourceProviderID × List Resource)} {i : Nat}
    {st : ManagerState} {futures : List PromiseId}
    {res : PublishResult} {st1 : ManagerState}
    (h : sendPublishGroups freshUuid freshPromise groups i st futures =
      some (res, st1)) :
    st1.subscribed.map Prod.fst = st.subscribed.map Prod.fst := by
  induction groups generalizing i st futures with
  | nil =>
    unfold sendPublishGroups at h
    simp only [Option.some.injEq, Prod.mk.injEq] at h
    rw [← h.2]
  | cons g rest ih =>
    unfold sendPublishGroups at h
    split at h
    · exact absurd h (by simp)
    · dsimp only at h
      split at h
      · rw [ih h]
        simp only [keys_mapValueAt]
      · simp only [Option.some.injEq, Prod.mk.injEq] at h
        rw [← h.2]

theorem publishResources_registryWF {st : ManagerState}
    {resources : List Resource} {freshUuid : Nat → UUID}
    {freshPromise : Nat → PromiseId} {res : PublishResult} {st1 : ManagerState}
    (h : publishResources st resources freshUuid freshPromise = some (res, st1))
    (hwf : RegistryWF st) : RegistryWF st1 := by
  unfold ResourceProviderManagerProcess.publishResources at h
  split at h
  · simp only [Option.some.injEq, Prod.mk.injEq] at h
    rw [← h.2]
    exact hwf
  · unfold RegistryWF
    rw [sendPublishGroups_keys h]
    exact hwf

theorem step_registryWF {st st1 : ManagerState} (h : Step st st1)
    (hwf : RegistryWF st) : RegistryWF st1 := by
  cases h with
  | api _ _ _ _ _ _ ha => exact api_registryWF ha hwf
  | applyOp _ _ ha => exact applyOfferOperation_registryWF ha hwf
  | ackOp _ _ ha => exact acknowledgeOfferOperationUpdate_registryWF ha hwf
  | reconcileOp m => exact reconcileOfferOperations_registryWF _ m hwf
  | publishOp _ _ _ _ _ ha => exact publishResources_registryWF ha hwf
  | readerClosed rid _ hmem ha => exact fireReaderClosed_registryWF _ rid _ ha hwf

theorem reachable_registryWF {st : ManagerState} (h : Reachable st) :
    RegistryWF st := by
  induction h with
  | refl => simp [RegistryWF, ManagerState.init]
  | tail _ hstep ih => exact step_registryWF hstep ih

/-! ### Concrete scenario material -/

def connS1 : HttpConnection :=
  { isOpen := true, contentType := .json, streamId := "S1", written := [] }

def connS2 : HttpConnection :=
  { isOpen := true, contentType := .json, streamId := "S2", written := [] }

def connClosed : HttpConnection :=
  { isOpen := false, contentType := .json, streamId := "S3", written := [] }

def subInfoNoId : CallSubscribe :=
  { resourceProviderInfo :=
    { rpType := "org.apache.mesos.rp.test", name := "disk", id := none } }

def subInfoP : CallSubscribe :=
  { resourceProviderInfo :=
    { rpType := "org.apache.mesos.rp.test", name := "disk", id := some "P" } }

/-- State after the first subscribe of provider `P` (session tag 1,
stream `S1`, ID freshly assigned). -/
def stAfterFirstSubscribe : ManagerState :=
  ResourceProviderManagerProcess.subscribe ManagerState.init connS1 subInfoNoId "P" 1

/-- State after a fast resubscribe of provider `P` (session tag 2, stream
`S2`, replacing the first session). -/
def stAfterResubscribe : ManagerState :=
  ResourceProviderManagerProcess.subscribe stAfterFirstSubscribe connS2 subInfoP "Q" 2

/-- C1: the claim says the reader-closed observer removes the session from
the registry iff the currently registered session for that provider ID is
the same instance, so a fast resubscribe keeps the newer session and the
manager does not crash.  The code (manager.cpp:605-612) instead
unconditionally `CHECK`s membership and erases by provider ID: after a
resubscribe has replaced session 1 by session 2, firing session 1's
observer removes session 2 from the registry, and firing session 2's
observer afterwards fails the `CHECK` (modelled as `none`), crashing the
manager. -/
theorem C1_reader_closed_observer_erases_newer_session :
    ((alookup "P" stAfterResubscribe.subscribed).map (fun rp => rp.tag) = some 2) ∧
    ("P" ∈ stAfterResubscribe.observers) ∧
    (∃ st3,
      ResourceProviderManagerProcess.fireReaderClosed stAfterResubscribe "P" = some st3 ∧
      alookup "P" st3.subscribed = none ∧
      ("P" ∈ st3.observers) ∧
      ResourceProviderManagerProcess.fireReaderClosed st3 "P" = none) :=
  ⟨rfl, by decide, ⟨_, rfl, rfl, by decide, rfl⟩⟩

/-- Concrete request for C2: a POST whose Content-Type is a supported media
type up to letter case only. -/
def reqC2 : Request :=
  { method := "POST",
    headers := [("Content-Type", "Application/Json")],
    pbParse := none,
    jsonParse := .parsed
      { callType := .SUBSCRIBE, resourceProviderId := none,
        subscribe := some subInfoNoId, updateOfferOperationStatus := none,
        updateState := none, updatePublishResourcesStatus := none },
    acceptsJson := true, acceptsProtobuf := false }

/-- C2: the claim says Content-Type is matched case-insensitively, so a
POST with `Content-Type: Application/Json` must not be rejected with 415.
The code compares the header with `==` (case-sensitively; the TODO comment
at manager.cpp:214 admits values are case-insensitive), so this request is
rejected with 415 unsupported media type. -/
theorem C2_content_type_compared_case_sensitively :
    "Application/Json".data.map Char.toLower = APPLICATION_JSON.data ∧
    ResourceProviderManagerProcess.api ManagerState.init reqC2 "S" "P" 1 =
      some (Response.unsupportedMediaType
        ("Expecting \x27Content-Type\x27 of " ++ APPLICATION_JSON ++ " or " ++
          APPLICATION_PROTOBUF), ManagerState.init) ∧
    Response.status (Response.unsupportedMediaType
      ("Expecting \x27Content-Type\x27 of " ++ APPLICATION_JSON ++ " or " ++
        APPLICATION_PROTOBUF)) = 415 :=
  ⟨by decide, rfl, rfl⟩

/-! ### Reaching the call branches of `api` -/

/-- The `Call` a request parses to under its Content-Type header, if any. -/
def requestCall (req : Request) : Option Call :=
  match req.getHeader "Content-Type" with
  | none => none
  | some ct =>
    match parseCall req ct with
    | .ok c => some c
    | .error _ => none

theorem requestCall_spec {req : Request} {call : Call}
    (h : requestCall req = some call) :
    ∃ ct, req.getHeader "Content-Type" = some ct ∧
      parseCall req ct = Except.ok call := by
  unfold requestCall at h
  cases hct : req.getHeader "Content-Type" with
  | none =>
    rw [hct] at h
    exact absurd h (by simp)
  | some ct =>
    rw [hct] at h
    dsimp only at h
    cases hp : parseCall req ct with
    | ok c =>
      rw [hp] at h
      simp only [Option.some.injEq] at h
      exact ⟨ct, rfl, by rw [hp, h]⟩
    | error e =>
      rw [hp] at h
      exact absurd h (by simp)

theorem api_reaches_branch {st : ManagerState} {req : Request} {a : String}
    {b : ResourceProviderID} {c : Nat} {resp : Response} {st1 : ManagerState}
    {call : Call}
    (hmethod : req.method = "POST") (hcall : requestCall req = some call)
    (h : ResourceProviderManagerProcess.api st req a b c = some (resp, st1)) :
    (∃ e, validate call = some e ∧
      resp = .badRequest ("Failed to validate resource_provider::Call: " ++ e) ∧
      st1 = st) ∨
    (validate call = none ∧
      ((call.callType = CallType.SUBSCRIBE ∧
        apiSubscribeBranch st req call a b c = some (resp, st1)) ∨
       (call.callType ≠ CallType.SUBSCRIBE ∧
        apiDispatch st req call = some (resp, st1)))) := by
  obtain ⟨ct, hct, hp⟩ := requestCall_spec hcall
  unfold ResourceProviderManagerProcess.api at h
  rw [if_neg (by simp [hmethod])] at h
  rw [hct] at h
  dsimp only at h
  rw [hp] at h
  dsimp only at h
  cases hv : validate call with
  | some e =>
    rw [hv] at h
    simp only [Option.some.injEq, Prod.mk.injEq] at h
    exact Or.inl ⟨e, rfl, h.1.symm, h.2.symm⟩
  | none =>
    rw [hv] at h
    dsimp only at h
    by_cases hty : call.callType = CallType.SUBSCRIBE
    · rw [if_pos hty] at h
      exact Or.inr ⟨rfl, Or.inl ⟨hty, h⟩⟩
    · rw [if_neg hty] at h
      exact Or.inr ⟨rfl, Or.inr ⟨hty, h⟩⟩

/-! ### C3: stream-ID fencing of non-subscribe calls -/

theorem apiDispatch_fencing {st : ManagerState} {req : Request} {call : Call}
    {resp : Response} {st1 : ManagerState} {rp : ResourceProvider}
    (hsub : alookup (call.resourceProviderId.getD "") st.subscribed = some rp)
    (h : apiDispatch st req call = some (resp, st1)) :
    (200 ≤ resp.status ∧ resp.status < 300 →
      req.getHeader "Mesos-Stream-Id" = some rp.http.streamId) ∧
    ((req.getHeader "Mesos-Stream-Id" = none ∨
      (∃ sid, req.getHeader "Mesos-Stream-Id" = some sid ∧
        sid ≠ rp.http.streamId)) →
      resp.status = 400 ∧ st1 = st) := by
  unfold apiDispatch at h
  rw [hsub] at h
  dsimp only at h
  cases hsid : req.getHeader "Mesos-Stream-Id" with
  | none =>
    rw [hsid] at h
    dsimp only at h
    simp only [Option.some.injEq, Prod.mk.injEq] at h
    constructor
    · intro h2
      rw [← h.1] at h2
      simp [Response.status] at h2
    · intro _
      exact ⟨by rw [← h.1]; rfl, h.2.symm⟩
  | some sid =>
    rw [hsid] at h
    dsimp only at h
    by_cases hne : sid ≠ rp.http.streamId
    · rw [if_pos hne] at h
      simp only [Option.some.injEq, Prod.mk.injEq] at h
      constructor
      · intro h2
        rw [← h.1] at h2
        simp [Response.status] at h2
      · intro _
        exact ⟨by rw [← h.1]; rfl, h.2.symm⟩
    · rw [if_neg hne] at h
      have heq : sid = rp.http.streamId := not_ne_iff.mp hne
      have hgood : (some sid : Option String) = some rp.http.streamId := by
        rw [heq]
      have hnm : ¬((some sid : Option String) = none ∨
          (∃ sid2, (some sid : Option String) = some sid2 ∧
            sid2 ≠ rp.http.streamId)) := by
        intro hcase
        cases hcase with
        | inl h0 =>
          exact absurd h0 (by simp)
        | inr h0 =>
          obtain ⟨sid2, h2, h3⟩ := h0
          simp only [Option.some.injEq] at h2
          exact h3 (by rw [← h2]; exact heq)
      cases hty : call.callType with
      | UNKNOWN =>
        rw [hty] at h
        dsimp only at h
        simp only [Option.some.injEq, Prod.mk.injEq] at h
        refine ⟨?_, fun hcase => absurd hcase hnm⟩
        intro h2
        rw [← h.1] at h2
        simp [Response.status] at h2
      | SUBSCRIBE =>
        rw [hty] at h
        dsimp only at h
        exact absurd h (by simp)
      | UPDATE_OFFER_OPERATION_STATUS =>
        exact ⟨fun _ => hgood, fun hcase => absurd hcase hnm⟩
      | UPDATE_STATE =>
        exact ⟨fun _ => hgood, fun hcase => absurd hcase hnm⟩
      | UPDATE_PUBLISH_RESOURCES_STATUS =>
        exact ⟨fun _ => hgood, fun hcase => absurd hcase hnm⟩

/-- C3: for every non-SUBSCRIBE call naming a subscribed provider, `api`
returns a 2xx response only if the request carries a `Mesos-Stream-Id`
header equal to the current session stream ID; a missing or mismatched
header yields 400 and the state is left untouched (the call is not
dispatched). -/
theorem C3_stream_id_fencing (st : ManagerState) (req : Request)
    (freshStreamId : String) (freshProviderId : ResourceProviderID) (tag : Nat)
    (resp : Response) (st1 : ManagerState) (call : Call) (rp : ResourceProvider)
    (hmethod : req.method = "POST")
    (hcall : requestCall req = some call)
    (htype : call.callType ≠ CallType.SUBSCRIBE)
    (hsub : alookup (call.resourceProviderId.getD "") st.subscribed = some rp)
    (happi : ResourceProviderManagerProcess.api st req freshStreamId
      freshProviderId tag = some (resp, st1)) :
    (200 ≤ resp.status ∧ resp.status < 300 →
      req.getHeader "Mesos-Stream-Id" = some rp.http.streamId) ∧
    ((req.getHeader "Mesos-Stream-Id" = none ∨
      (∃ sid, req.getHeader "Mesos-Stream-Id" = some sid ∧
        sid ≠ rp.http.streamId)) →
      resp.status = 400 ∧ st1 = st) := by
  rcases api_reaches_branch hmethod hcall happi with ⟨e, hv, hresp, hst⟩ | ⟨hv, hbr⟩
  · constructor
    · intro h2
      rw [hresp] at h2
      simp [Response.status] at h2
    · intro _
      refine ⟨?_, hst⟩
      rw [hresp]
      rfl
  · cases hbr with
    | inl h0 => exact absurd h0.1 htype
    | inr h0 => exact apiDispatch_fencing hsub h0.2

def callC3 : Call :=
  { callType := .UPDATE_OFFER_OPERATION_STATUS, resourceProviderId := some "P",
    subscribe := none,
    updateOfferOperationStatus := some
      { frameworkId := "fw", status := "st", operationUuid := [0],
        latestStatus := none },
    updateState := none, updatePublishResourcesStatus := none }

/-- A non-subscribe call for provider `P` without a `Mesos-Stream-Id`
header. -/
def reqC3 : Request :=
  { method := "POST", headers := [("Content-Type", APPLICATION_JSON)],
    pbParse := none, jsonParse := .parsed callC3,
    acceptsJson := true, acceptsProtobuf := false }

/-- The session registered for `P` in `stAfterFirstSubscribe`. -/
def rpP1 : ResourceProvider :=
  { tag := 1,
    info := { rpType := "org.apache.mesos.rp.test", name := "disk", id := some "P" },
    http := { isOpen := true, contentType := .json, streamId := "S1",
              written := [Event.subscribed "P"] },
    publishes := [] }

theorem C3_stream_id_fencing_witness :
    (Response.badRequest
      "All non-subscribe calls should include to \x27Mesos-Stream-Id\x27 header").status = 400 ∧
    stAfterFirstSubscribe = stAfterFirstSubscribe :=
  (C3_stream_id_fencing stAfterFirstSubscribe reqC3 "X" "Y" 7
    (Response.badRequest
      "All non-subscribe calls should include to \x27Mesos-Stream-Id\x27 header")
    stAfterFirstSubscribe callC3 rpP1 rfl rfl (by decide) rfl rfl).2 (Or.inl rfl)

/-! ### C4: subscribe with a Mesos-Stream-Id header -/

def callSubscribeNoId : Call :=
  { callType := .SUBSCRIBE, resourceProviderId := none,
    subscribe := some subInfoNoId, updateOfferOperationStatus := none,
    updateState := none, updatePublishResourcesStatus := none }

/-- A SUBSCRIBE request carrying a `Mesos-Stream-Id` header whose Accept
header permits neither supported media type. -/
def reqC4cex : Request :=
  { method := "POST",
    headers := [("Content-Type", APPLICATION_JSON), ("Mesos-Stream-Id", "stale")],
    pbParse := none, jsonParse := .parsed callSubscribeNoId,
    acceptsJson := false, acceptsProtobuf := false }

/-- C4 counterexample: the claim says every SUBSCRIBE call that includes a
`Mesos-Stream-Id` header gets 400 Bad Request.  The code checks the Accept
header first (manager.cpp:254-267), so this SUBSCRIBE request with the
header present is answered 406 Not Acceptable, not 400. -/
theorem C4_counterexample :
    (requestCall reqC4cex).map (fun c => c.callType) = some CallType.SUBSCRIBE ∧
    reqC4cex.getHeader "Mesos-Stream-Id" = some "stale" ∧
    ResourceProviderManagerProcess.api ManagerState.init reqC4cex "S" "P" 1 =
      some (Response.notAcceptable
        ("Expecting \x27Accept\x27 to allow " ++ "\x27" ++ APPLICATION_PROTOBUF ++
          "\x27 or \x27" ++ APPLICATION_JSON ++ "\x27"), ManagerState.init) ∧
    Response.status (Response.notAcceptable
      ("Expecting \x27Accept\x27 to allow " ++ "\x27" ++ APPLICATION_PROTOBUF ++
        "\x27 or \x27" ++ APPLICATION_JSON ++ "\x27")) ≠ 400 :=
  ⟨rfl, rfl, rfl, by decide⟩

/-- C4 (amended): for every SUBSCRIBE call whose Accept header permits one
of the supported media types, if the request includes a `Mesos-Stream-Id`
header then `api` returns 400 Bad Request and leaves the state unchanged
(no session is created). -/
theorem C4_subscribe_with_stream_id_rejected (st : ManagerState)
    (req : Request) (freshStreamId : String)
    (freshProviderId : ResourceProviderID) (tag : Nat) (resp : Response)
    (st1 : ManagerState) (call : Call)
    (hmethod : req.method = "POST")
    (hcall : requestCall req = some call)
    (htype : call.callType = CallType.SUBSCRIBE)
    (hval : validate call = none)
    (haccept : negotiateAccept req ≠ none)
    (hsid : (req.getHeader "Mesos-Stream-Id").isSome)
    (happi : ResourceProviderManagerProcess.api st req freshStreamId
      freshProviderId tag = some (resp, st1)) :
    resp = Response.badRequest
      "Subscribe calls should not include the \x27Mesos-Stream-Id\x27 header" ∧
    resp.status = 400 ∧ st1 = st := by
  rcases api_reaches_branch hmethod hcall happi with ⟨e, hv, _, _⟩ | ⟨hv, hbr⟩
  · rw [hval] at hv
    exact absurd hv (by simp)
  · cases hbr with
    | inr h0 => exact absurd htype h0.1
    | inl h0 =>
      have h := h0.2
      unfold apiSubscribeBranch at h
      cases hacc : negotiateAccept req with
      | none => exact absurd hacc haccept
      | some at0 =>
        rw [hacc] at h
        dsimp only at h
        rw [if_pos hsid] at h
        simp only [Option.some.injEq, Prod.mk.injEq] at h
        exact ⟨h.1.symm, by rw [← h.1]; rfl, h.2.symm⟩

/-- Like `reqC4cex` but with an Accept header admitting JSON. -/
def reqC4ok : Request :=
  { reqC4cex with acceptsJson := true }

theorem C4_subscribe_with_stream_id_rejected_witness :
    Response.badRequest
      "Subscribe calls should not include the \x27Mesos-Stream-Id\x27 header" =
      Response.badRequest
        "Subscribe calls should not include the \x27Mesos-Stream-Id\x27 header" ∧
    (Response.badRequest
      "Subscribe calls should not include the \x27Mesos-Stream-Id\x27 header").status = 400 ∧
    ManagerState.init = ManagerState.init :=
  C4_subscribe_with_stream_id_rejected ManagerState.init reqC4ok "S" "P" 1
    (Response.badRequest
      "Subscribe calls should not include the \x27Mesos-Stream-Id\x27 header")
    ManagerState.init callSubscribeNoId rfl rfl rfl rfl (by decide) rfl rfl

/-! ### Publish resources: partition and send-loop characterizations -/

theorem send_snd_isOpen (c : HttpConnection) (e : Event) :
    ((c.send e).2).isOpen = c.isOpen := by
  unfold HttpConnection.send
  cases h : c.isOpen <;> simp [h]

theorem partitionResources_error (st : ManagerState) :
    ∀ (resources : List Resource) (acc : List (ResourceProviderID × List Resource)),
    (∃ r ∈ resources, ∃ rid, r.providerId = some rid ∧
      alookup rid st.subscribed = none) →
    ∃ msg, partitionResources st resources acc = .error msg := by
  intro resources
  induction resources with
  | nil =>
    intro acc h
    obtain ⟨r, hr, _⟩ := h
    exact absurd hr (by simp)
  | cons r rest ih =>
    intro acc h
    unfold partitionResources
    cases hp : r.providerId with
    | none =>
      obtain ⟨r2, hr2, rid2, hrid2, hnone2⟩ := h
      cases List.mem_cons.mp hr2 with
      | inl h0 =>
        rw [h0, hp] at hrid2
        exact absurd hrid2 (by simp)
      | inr h0 => exact ih acc ⟨r2, h0, rid2, hrid2, hnone2⟩
    | some rid =>
      dsimp only
      by_cases hs : (alookup rid st.subscribed).isSome
      · rw [if_pos hs]
        obtain ⟨r2, hr2, rid2, hrid2, hnone2⟩ := h
        cases List.mem_cons.mp hr2 with
        | inl h0 =>
          rw [h0, hp] at hrid2
          simp only [Option.some.injEq] at hrid2
          rw [← hrid2] at hnone2
          rw [hnone2] at hs
          exact absurd hs (by simp)
        | inr h0 =>
          exact ih _ ⟨r2, h0, rid2, hrid2, hnone2⟩
      · rw [if_neg hs]
        exact ⟨_, rfl⟩

theorem partitionResources_ok_of_subscribed (st : ManagerState) :
    ∀ (resources : List Resource)
      (_ : ∀ r ∈ resources, ∀ rid, r.providerId = some rid →
        (alookup rid st.subscribed).isSome)
      (acc : List (ResourceProviderID × List Resource)),
    ∃ groups, partitionResources st resources acc = .ok groups := by
  intro resources
  induction resources with
  | nil => exact fun _ acc => ⟨acc, rfl⟩
  | cons r rest ih =>
    intro hall acc
    unfold partitionResources
    cases hp : r.providerId with
    | none => exact ih (fun r2 h2 => hall r2 (List.mem_cons_of_mem _ h2)) acc
    | some rid =>
      dsimp only
      rw [if_pos (hall r (List.mem_cons_self _ _) rid hp)]
      exact ih (fun r2 h2 => hall r2 (List.mem_cons_of_mem _ h2)) _

theorem addProvidedResource_keys (acc : List (ResourceProviderID × List Resource))
    (rid : ResourceProviderID) (r : Resource) :
    ∀ k, k ∈ (addProvidedResource acc rid r).map Prod.fst →
      k ∈ acc.map Prod.fst ∨ k = rid := by
  intro k hk
  unfold addProvidedResource at hk
  cases h : alookup rid acc with
  | some rs =>
    rw [h] at hk
    rw [keys_mapValueAt] at hk
    exact Or.inl hk
  | none =>
    rw [h] at hk
    rw [List.map_append, List.mem_append] at hk
    cases hk with
    | inl h0 => exact Or.inl h0
    | inr h0 =>
      simp only [List.map_cons, List.map_nil, List.mem_singleton] at h0
      exact Or.inr h0

theorem partitionResources_ok_keys (st : ManagerState) :
    ∀ (resources : List Resource)
      (acc groups : List (ResourceProviderID × List Resource)),
    partitionResources st resources acc = .ok groups →
    ∀ k ∈ groups.map Prod.fst,
      k ∈ acc.map Prod.fst ∨ ∃ r ∈ resources, r.providerId = some k := by
  intro resources
  induction resources with
  | nil =>
    intro acc groups h k hk
    unfold partitionResources at h
    simp only [Except.ok.injEq] at h
    rw [← h] at hk
    exact Or.inl hk
  | cons r rest ih =>
    intro acc groups h k hk
    unfold partitionResources at h
    cases hp : r.providerId with
    | none =>
      rw [hp] at h
      cases ih acc groups h k hk with
      | inl h0 => exact Or.inl h0
      | inr h0 =>
        obtain ⟨r2, h2, h3⟩ := h0
        exact Or.inr ⟨r2, List.mem_cons_of_mem _ h2, h3⟩
    | some rid =>
      rw [hp] at h
      dsimp only at h
      by_cases hs : (alookup rid st.subscribed).isSome
      · rw [if_pos hs] at h
        cases ih _ groups h k hk with
        | inl h0 =>
          cases addProvidedResource_keys acc rid r k h0 with
          | inl h1 => exact Or.inl h1
          | inr h1 =>
            exact Or.inr ⟨r, List.mem_cons_self _ _, by rw [hp, h1]⟩
        | inr h0 =>
          obtain ⟨r2, h2, h3⟩ := h0
          exact Or.inr ⟨r2, List.mem_cons_of_mem _ h2, h3⟩
      · rw [if_neg hs] at h
        exact absurd h (by simp)

theorem range_shift_map {γ : Type} (f : Nat → γ) (i n : Nat) :
    (List.range (n + 1)).map (fun j => f (i + j)) =
      f i :: (List.range n).map (fun j => f (i + 1 + j)) := by
  rw [List.range_succ_eq_map, List.map_cons, List.map_map]
  refine congrArg₂ _ (by simp) ?_
  apply List.map_congr_left
  intro j _
  simp only [Function.comp_apply]
  congr 1
  omega

theorem sendPublishGroups_all_open (freshUuid : Nat → UUID)
    (freshPromise : Nat → PromiseId) :
    ∀ (groups : List (ResourceProviderID × List Resource)) (i : Nat)
      (st : ManagerState) (futures : List PromiseId),
    (∀ g ∈ groups, ∃ rp, alookup g.1 st.subscribed = some rp ∧
      rp.http.isOpen = true) →
    ∃ st1,
      sendPublishGroups freshUuid freshPromise groups i st futures =
        some (.combined (futures ++
          (List.range groups.length).map (fun j => freshPromise (i + j))), st1) ∧
      st1.promises = st.promises ++
        (List.range groups.length).map
          (fun j => (freshPromise (i + j), PromiseState.pending)) := by
  intro groups
  induction groups with
  | nil =>
    intro i st futures _
    exact ⟨st, by simp [sendPublishGroups], by simp⟩
  | cons g rest ih =>
    intro i st futures hopen
    obtain ⟨rp, hrp, hio⟩ := hopen g (List.mem_cons_self _ _)
    have hsend1 : (rp.http.send
        (Event.publishResources (freshUuid i).toBytes g.2)).1 = true := by
      rw [send_fst, hio]
    unfold sendPublishGroups
    rw [hrp]
    dsimp only
    rw [hsend1]
    rw [if_pos rfl]
    have hopen2 : ∀ g2 ∈ rest, ∃ rp2,
        alookup g2.1 (mapValueAt st.subscribed g.1
          { rp with
            http := (rp.http.send
              (Event.publishResources (freshUuid i).toBytes g.2)).2,
            publishes := hmPut rp.publishes (freshUuid i) (freshPromise i) }) =
          some rp2 ∧ rp2.http.isOpen = true := by
      intro g2 hg2
      rw [alookup_mapValueAt]
      by_cases hk : g2.1 = g.1
      · rw [if_pos hk, hrp]
        refine ⟨_, rfl, ?_⟩
        dsimp only
        rw [send_snd_isOpen]
        exact hio
      · rw [if_neg hk]
        exact hopen g2 (List.mem_cons_of_mem _ hg2)
    obtain ⟨st1, heq, hprom⟩ := ih (i + 1)
      { st with
        subscribed := mapValueAt st.subscribed g.1
          { rp with
            http := (rp.http.send
              (Event.publishResources (freshUuid i).toBytes g.2)).2,
            publishes := hmPut rp.publishes (freshUuid i) (freshPromise i) },
        promises := st.promises ++ [(freshPromise i, PromiseState.pending)] }
      (futures ++ [freshPromise i]) hopen2
    refine ⟨st1, ?_, ?_⟩
    · rw [heq]
      rw [List.length_cons, range_shift_map (fun j => freshPromise j) i rest.length]
      simp [List.append_assoc]
    · rw [hprom]
      dsimp only
      rw [List.length_cons, range_shift_map
        (fun j => (freshPromise j, PromiseState.pending)) i rest.length]
      simp [List.append_assoc]

theorem collectOutcome_eq_none_iff (cs : List (Option String)) :
    collectOutcome cs = none ↔ ∀ c ∈ cs, c = none := by
  induction cs with
  | nil => simp [collectOutcome]
  | cons c rest ih =>
    unfold collectOutcome at ih ⊢
    rw [List.findSome?_cons]
    cases c with
    | none => simp [ih]
    | some e => simp

theorem collectOutcome_first_error (cs : List (Option String)) (e : String)
    (h : collectOutcome cs = some e) :
    ∃ pre post, cs = pre ++ some e :: post ∧ ∀ c ∈ pre, c = none := by
  induction cs with
  | nil => exact absurd h (by simp [collectOutcome])
  | cons c rest ih =>
    unfold collectOutcome at h
    rw [List.findSome?_cons] at h
    cases hc : c with
    | some e2 =>
      rw [hc] at h
      simp only [id, Option.some.injEq] at h
      exact ⟨[], rest, by rw [h]; rfl, by simp⟩
    | none =>
      rw [hc] at h
      obtain ⟨pre, post, h1, h2⟩ := ih h
      refine ⟨none :: pre, post, by rw [h1]; rfl, ?_⟩
      intro c2 hc2
      cases List.mem_cons.mp hc2 with
      | inl h0 => exact h0
      | inr h0 => exact h2 c2 h0

theorem alookup_map_const_pending (pids : List PromiseId) (pid : PromiseId) :
    alookup pid (pids.map (fun p => (p, PromiseState.pending))) =
      if pid ∈ pids then some PromiseState.pending else none := by
  induction pids with
  | nil => simp [alookup]
  | cons p rest ih =>
    simp only [List.map_cons, alookup]
    by_cases h : p = pid
    · simp [h, List.mem_cons]
    · rw [if_neg h, ih]
      have hne : pid ≠ p := fun hh => h hh.symm
      by_cases h2 : pid ∈ rest
      · rw [if_pos h2, if_pos (List.mem_cons_of_mem _ h2)]
      · rw [if_neg h2, if_neg (by simp [List.mem_cons, hne, h2])]

def fUuid16 : Nat → UUID :=
  fun _ => ⟨[0, 1, 2, 3, 4, 5, 6, 7, 8, 9, 10, 11, 12, 13, 14, 15]⟩

def fProm : Nat → PromiseId := fun i => i

def rpPClosed : ResourceProvider :=
  { tag := 3,
    info := { rpType := "org.apache.mesos.rp.test", name := "disk", id := some "P" },
    http := connClosed, publishes := [] }

/-- Registry holding a single subscribed provider `P` whose streaming
connection is already closed. -/
def stClosedP : ManagerState :=
  { subscribed := [("P", rpPClosed)], promises := [], messages := [],
    terminated := [], observers := [] }

/-- C5 counterexample: the claim promises that whenever every resource
carrying a provider ID names a subscribed provider, the call returns a
combined handle satisfying the obtained-iff-all-succeed law.  With `P`
subscribed but its connection closed, the code instead fails the whole
call immediately on the failed send (manager.cpp:551-555) — no combined
handle and no per-group handle at all, although no per-group handle ever
failed. -/
theorem C5_counterexample :
    (alookup "P" stClosedP.subscribed).isSome ∧
    (∀ r ∈ [({ providerId := some "P", payload := "disk" } : Resource)],
      r.providerId = some "P") ∧
    ResourceProviderManagerProcess.publishResources stClosedP
      [{ providerId := some "P", payload := "disk" }] fUuid16 fProm =
      some (.failure
        "Failed to send PUBLISH_RESOURCES event to resource provider P: connection closed",
        stClosedP) :=
  ⟨rfl, by decide, rfl⟩

/-- C5 (amended): `publishResources` fails the whole call immediately when
any resource carrying a provider ID names an unsubscribed provider;
otherwise, provided every `PUBLISH_RESOURCES` send succeeds (each involved
session is open), it returns the `collect` of exactly the freshly created
pending per-group handles, and the combined outcome succeeds iff every
per-group handle succeeds, failing with the first reported error
otherwise.  (A failed send instead fails the whole call immediately.) -/
theorem C5_publishResources (st : ManagerState) (resources : List Resource)
    (freshUuid : Nat → UUID) (freshPromise : Nat → PromiseId)
    (hfresh : ∀ i, alookup (freshPromise i) st.promises = none) :
    ((∃ r ∈ resources, ∃ rid, r.providerId = some rid ∧
        alookup rid st.subscribed = none) →
      ∃ msg, ResourceProviderManagerProcess.publishResources st resources
        freshUuid freshPromise = some (.failure msg, st)) ∧
    ((∀ r ∈ resources, ∀ rid, r.providerId = some rid →
        ∃ rp, alookup rid st.subscribed = some rp ∧ rp.http.isOpen = true) →
      ∃ pids st1,
        ResourceProviderManagerProcess.publishResources st resources
          freshUuid freshPromise = some (.combined pids, st1) ∧
        st1.promises = st.promises ++
          pids.map (fun pid => (pid, PromiseState.pending)) ∧
        (∀ pid ∈ pids, alookup pid st1.promises = some PromiseState.pending) ∧
        (∀ cs : List (Option String), cs.length = pids.length →
          ((collectOutcome cs = none ↔ ∀ c ∈ cs, c = none) ∧
           (∀ e, collectOutcome cs = some e →
             ∃ pre post, cs = pre ++ some e :: post ∧ ∀ c ∈ pre, c = none)))) := by
  constructor
  · intro h
    obtain ⟨msg, hmsg⟩ := partitionResources_error st resources [] h
    refine ⟨msg, ?_⟩
    unfold ResourceProviderManagerProcess.publishResources
    rw [hmsg]
  · intro hall
    have hall2 : ∀ r ∈ resources, ∀ rid, r.providerId = some rid →
        (alookup rid st.subscribed).isSome := by
      intro r hr rid hrid
      obtain ⟨rp, h1, _⟩ := hall r hr rid hrid
      rw [h1]
      rfl
    obtain ⟨groups, hgroups⟩ :=
      partitionResources_ok_of_subscribed st resources hall2 []
    have hopen : ∀ g ∈ groups, ∃ rp,
        alookup g.1 st.subscribed = some rp ∧ rp.http.isOpen = true := by
      intro g hg
      have hk := partitionResources_ok_keys st resources [] groups hgroups g.1
        (List.mem_map_of_mem Prod.fst hg)
      cases hk with
      | inl h0 => exact absurd h0 (by simp)
      | inr h0 =>
        obtain ⟨r, hr, hrid⟩ := h0
        exact hall r hr g.1 hrid
    obtain ⟨st1, heq, hprom⟩ :=
      sendPublishGroups_all_open freshUuid freshPromise groups 0 st [] hopen
    refine ⟨(List.range groups.length).map (fun j => freshPromise (0 + j)),
      st1, ?_, ?_, ?_, ?_⟩
    · unfold ResourceProviderManagerProcess.publishResources
      rw [hgroups]
      dsimp only
      rw [heq]
      rfl
    · rw [hprom]
      rw [List.map_map]
      rfl
    · intro pid hpid
      rw [hprom]
      have hfreshpid : alookup pid st.promises = none := by
        obtain ⟨j, _, hpj⟩ := List.mem_map.mp hpid
        rw [← hpj]
        exact hfresh (0 + j)
      rw [alookup_append_of_none _ _ _ hfreshpid]
      have hmm : ((List.range groups.length).map
          (fun j => freshPromise (0 + j))).map
            (fun p => (p, PromiseState.pending)) =
          (List.range groups.length).map
            (fun j => (freshPromise (0 + j), PromiseState.pending)) := by
        rw [List.map_map]
        rfl
      rw [← hmm, alookup_map_const_pending, if_pos hpid]
    · intro cs _
      exact ⟨collectOutcome_eq_none_iff cs,
        fun e he => collectOutcome_first_error cs e he⟩

theorem C5_publishResources_witness :
    ∃ pids st1,
      ResourceProviderManagerProcess.publishResources stAfterFirstSubscribe
        [{ providerId := some "P", payload := "disk" }] fUuid16 fProm =
        some (.combined pids, st1) ∧
      st1.promises = stAfterFirstSubscribe.promises ++
        pids.map (fun pid => (pid, PromiseState.pending)) ∧
      (∀ pid ∈ pids, alookup pid st1.promises = some PromiseState.pending) ∧
      (∀ cs : List (Option String), cs.length = pids.length →
        ((collectOutcome cs = none ↔ ∀ c ∈ cs, c = none) ∧
         (∀ e, collectOutcome cs = some e →
           ∃ pre post, cs = pre ++ some e :: post ∧ ∀ c ∈ pre, c = none))) :=
  (C5_publishResources stAfterFirstSubscribe
    [{ providerId := some "P", payload := "disk" }] fUuid16 fProm
    (fun _ => rfl)).2
    (by
      intro r hr rid hrid
      rw [List.mem_singleton] at hr
      subst hr
      simp only [Option.some.injEq] at hrid
      subst hrid
      exact ⟨rpP1, rfl, rfl⟩)

/-! ### C10: publish with no provider-carried resources -/

theorem partitionResources_skip_all (st : ManagerState) :
    ∀ (resources : List Resource)
      (acc : List (ResourceProviderID × List Resource)),
    (∀ r ∈ resources, r.providerId = none) →
    partitionResources st resources acc = .ok acc := by
  intro resources
  induction resources with
  | nil => exact fun acc _ => rfl
  | cons r rest ih =>
    intro acc hall
    unfold partitionResources
    rw [hall r (List.mem_cons_self _ _)]
    exact ih acc (fun r2 h2 => hall r2 (List.mem_cons_of_mem _ h2))

/-- C10: when no resource carries a provider ID (including the empty set),
`publishResources` returns the immediately successful empty collect, sends
no event and leaves the whole manager state (registry, sessions, pending
publishes) unchanged. -/
theorem C10_publish_without_provider_resources (st : ManagerState)
    (resources : List Resource) (freshUuid : Nat → UUID)
    (freshPromise : Nat → PromiseId)
    (h : ∀ r ∈ resources, r.providerId = none) :
    ResourceProviderManagerProcess.publishResources st resources freshUuid
      freshPromise = some (.combined [], st) ∧
    collectOutcome [] = none := by
  constructor
  · unfold ResourceProviderManagerProcess.publishResources
    rw [partitionResources_skip_all st resources [] h]
    rfl
  · rfl

theorem C10_publish_without_provider_resources_witness :
    ResourceProviderManagerProcess.publishResources stAfterFirstSubscribe
      [{ providerId := none, payload := "cpus" }] fUuid16 fProm =
      some (.combined [], stAfterFirstSubscribe) ∧
    collectOutcome [] = none :=
  C10_publish_without_provider_resources stAfterFirstSubscribe
    [{ providerId := none, payload := "cpus" }] fUuid16 fProm (by decide)

/-! ### C6: update publish resources status -/

theorem alookup_mapUpdateAt {α β : Type} [DecidableEq α] (l : List (α × β))
    (k : α) (f : β → β) (k' : α) :
    alookup k' (mapUpdateAt l k f) =
      if k' = k then (alookup k l).map f else alookup k' l := by
  induction l with
  | nil => simp [alookup, mapUpdateAt]
  | cons e rest ih =>
    simp only [mapUpdateAt, List.map_cons] at ih ⊢
    by_cases h1 : e.1 = k
    · subst h1
      by_cases h2 : k' = e.1
      · subst h2
        simp [alookup, ih]
      · have h3 : ¬ e.1 = k' := fun h => h2 h.symm
        simp [alookup, h2, h3, ih]
    · by_cases h2 : k' = k
      · subst h2
        simp [alookup, h1, ih]
      · by_cases h3 : e.1 = k'
        · simp [alookup, h1, h3, h2]
        · simp [alookup, h1, h3, h2, ih]

theorem filter_ne_length_of_nodup {α β : Type} [DecidableEq α]
    (l : List (α × β)) (k : α) (hnodup : (l.map Prod.fst).Nodup)
    (h : (alookup k l).isSome) :
    (l.filter (fun e => decide (e.1 ≠ k))).length + 1 = l.length := by
  induction l with
  | nil => simp [alookup] at h
  | cons e rest ih =>
    rw [List.map_cons, List.nodup_cons] at hnodup
    rw [List.filter_cons]
    by_cases h1 : e.1 = k
    · rw [if_neg (by simp [h1])]
      have hnone : alookup k rest = none := by
        rw [alookup_eq_none_iff]
        rw [← h1]
        exact hnodup.1
      have hall : rest.filter (fun e2 => decide (e2.1 ≠ k)) = rest := by
        apply List.filter_eq_self.mpr
        intro e2 he2
        simp only [decide_eq_true_eq]
        intro hk
        have := (alookup_eq_none_iff k rest).mp hnone
        exact this (hk ▸ List.mem_map_of_mem Prod.fst he2)
      rw [hall]
      simp
    · rw [if_pos (by simp [h1])]
      simp only [alookup, if_neg h1] at h
      simp only [List.length_cons]
      rw [← ih hnodup.2 h]

theorem alookup_setPromise (ps : List (PromiseId × PromiseState))
    (pid : PromiseId) (f : PromiseState → PromiseState) (k : PromiseId) :
    alookup k (setPromise ps pid f) =
      if k = pid then (alookup pid ps).map f else alookup k ps := by
  unfold setPromise
  exact alookup_mapUpdateAt ps pid f k

/-- C6: on an UPDATE_PUBLISH_RESOURCES_STATUS call, a malformed publish
UUID is dropped with no state change; a UUID not in the session
`pendingPublishes` is dropped with no state change; otherwise an OK status
completes the matching handle and any other status fails it with a message
carrying the stringified status, and the entry is removed from the publish
map exactly once. -/
theorem C6_updatePublishResourcesStatus (st : ManagerState)
    (rid : ResourceProviderID) (rp : ResourceProvider)
    (u : CallUpdatePublishResourcesStatus)
    (hreg : alookup rid st.subscribed = some rp)
    (hnodup : (rp.publishes.map Prod.fst).Nodup) :
    (UUID.fromBytes u.uuid = none →
      ResourceProviderManagerProcess.updatePublishResourcesStatus st rid rp u = st) ∧
    (∀ uuid, UUID.fromBytes u.uuid = some uuid →
      alookup uuid rp.publishes = none →
      ResourceProviderManagerProcess.updatePublishResourcesStatus st rid rp u = st) ∧
    (∀ uuid pid, UUID.fromBytes u.uuid = some uuid →
      alookup uuid rp.publishes = some pid →
      (let st1 := ResourceProviderManagerProcess.updatePublishResourcesStatus st rid rp u
       (u.status = PublishStatus.OK →
         alookup pid st1.promises = (alookup pid st.promises).map PromiseState.set) ∧
       (u.status ≠ PublishStatus.OK →
         alookup pid st1.promises = (alookup pid st.promises).map
           (PromiseState.fail
             ("Failed to publish resources for resource provider " ++
               stringifyId rp.info.id ++ ": Received " ++
               stringifyPublishStatus u.status ++ " status"))) ∧
       (∃ rp1, alookup rid st1.subscribed = some rp1 ∧
         alookup uuid rp1.publishes = none ∧
         rp1.publishes.length + 1 = rp.publishes.length))) := by
  refine ⟨?_, ?_, ?_⟩
  · intro hmal
    unfold ResourceProviderManagerProcess.updatePublishResourcesStatus
    rw [hmal]
  · intro uuid hu hnone
    unfold ResourceProviderManagerProcess.updatePublishResourcesStatus
    rw [hu]
    dsimp only
    rw [hnone]
  · intro uuid pid hu hsome
    unfold ResourceProviderManagerProcess.updatePublishResourcesStatus
    rw [hu]
    dsimp only
    rw [hsome]
    dsimp only
    refine ⟨?_, ?_, ?_⟩
    · intro hok
      rw [if_pos hok]
      rw [alookup_setPromise, if_pos rfl]
    · intro hnok
      rw [if_neg hnok]
      rw [alookup_setPromise, if_pos rfl]
    · refine ⟨{ rp with publishes :=
          rp.publishes.filter (fun e => decide (e.1 ≠ uuid)) }, ?_, ?_, ?_⟩
      · rw [alookup_mapValueAt, if_pos rfl, hreg]
        rfl
      · show alookup uuid (rp.publishes.filter (fun e => decide (e.1 ≠ uuid))) = none
        rw [alookup_filter_ne, if_pos rfl]
      · show (rp.publishes.filter (fun e => decide (e.1 ≠ uuid))).length + 1 =
          rp.publishes.length
        exact filter_ne_length_of_nodup rp.publishes uuid hnodup (by rw [hsome]; rfl)

def uuid16 : UUID := ⟨[0, 1, 2, 3, 4, 5, 6, 7, 8, 9, 10, 11, 12, 13, 14, 15]⟩

def rpWithPublish : ResourceProvider :=
  { tag := 5,
    info := { rpType := "org.apache.mesos.rp.test", name := "disk", id := some "P" },
    http := connS1, publishes := [(uuid16, 42)] }

/-- Registry with provider `P` holding one pending publish (`uuid16` ↦
promise 42). -/
def stWithPublish : ManagerState :=
  { subscribed := [("P", rpWithPublish)],
    promises := [(42, PromiseState.pending)],
    messages := [], terminated := [], observers := [] }

def updOK : CallUpdatePublishResourcesStatus :=
  { uuid := [0, 1, 2, 3, 4, 5, 6, 7, 8, 9, 10, 11, 12, 13, 14, 15],
    status := .OK }

theorem C6_updatePublishResourcesStatus_witness :
    (let st1 := ResourceProviderManagerProcess.updatePublishResourcesStatus
      stWithPublish "P" rpWithPublish updOK
     (updOK.status = PublishStatus.OK →
       alookup 42 st1.promises =
         (alookup 42 stWithPublish.promises).map PromiseState.set) ∧
     (updOK.status ≠ PublishStatus.OK →
       alookup 42 st1.promises = (alookup 42 stWithPublish.promises).map
         (PromiseState.fail
           ("Failed to publish resources for resource provider " ++
             stringifyId rpWithPublish.info.id ++ ": Received " ++
             stringifyPublishStatus updOK.status ++ " status"))) ∧
     (∃ rp1, alookup "P" st1.subscribed = some rp1 ∧
       alookup uuid16 rp1.publishes = none ∧
       rp1.publishes.length + 1 = rpWithPublish.publishes.length)) :=
  (C6_updatePublishResourcesStatus stWithPublish "P" rpWithPublish updOK
    rfl (by decide)).2.2 uuid16 42 rfl rfl

/-! ### C7: the subscribe handler -/

/-- C7: `subscribe` assigns a freshly generated provider ID when the
supplied info has none and trusts a supplied ID otherwise; it writes the
`SUBSCRIBED` event carrying that ID as the first event of the new stream
and registers the session; if the send fails it aborts without touching
the state (the session is not inserted). -/
theorem C7_subscribe_behavior (st : ManagerState) (http : HttpConnection)
    (sub : CallSubscribe) (freshId : ResourceProviderID) (tag : Nat) :
    (http.isOpen = false →
      ResourceProviderManagerProcess.subscribe st http sub freshId tag = st) ∧
    (http.isOpen = true → http.written = [] →
      ∃ rid rp,
        rid = stringifyId (assignedInfo sub freshId).id ∧
        (sub.resourceProviderInfo.id = none → rid = freshId) ∧
        (∀ suppliedId, sub.resourceProviderInfo.id = some suppliedId →
          rid = suppliedId) ∧
        alookup rid (ResourceProviderManagerProcess.subscribe st http sub
          freshId tag).subscribed = some rp ∧
        rp.info = assignedInfo sub freshId ∧
        rp.tag = tag ∧
        rp.http.written = [Event.subscribed rid]) := by
  constructor
  · intro hclosed
    rw [subscribe_eq]
    rw [if_neg (by rw [hclosed]; exact Bool.false_ne_true)]
  · intro hopen hempty
    refine ⟨stringifyId (assignedInfo sub freshId).id,
      { tag := tag, info := assignedInfo sub freshId,
        http := { http with written := http.written ++
          [Event.subscribed (stringifyId (assignedInfo sub freshId).id)] },
        publishes := [] }, rfl, ?_, ?_, ?_, rfl, rfl, ?_⟩
    · intro hnone
      unfold assignedInfo
      rw [hnone]
      rfl
    · intro suppliedId hsome
      unfold assignedInfo
      rw [hsome]
      dsimp only
      rw [hsome]
      rfl
    · rw [subscribe_eq, if_pos hopen, putSubscribed_alookup, if_pos rfl]
    · rw [hempty]
      rfl

theorem C7_subscribe_behavior_witness :
    ∃ rid rp,
      rid = stringifyId (assignedInfo subInfoNoId "P").id ∧
      (subInfoNoId.resourceProviderInfo.id = none → rid = "P") ∧
      (∀ suppliedId, subInfoNoId.resourceProviderInfo.id = some suppliedId →
        rid = suppliedId) ∧
      alookup rid (ResourceProviderManagerProcess.subscribe ManagerState.init
        connS1 subInfoNoId "P" 1).subscribed = some rp ∧
      rp.info = assignedInfo subInfoNoId "P" ∧
      rp.tag = 1 ∧
      rp.http.written = [Event.subscribed rid] :=
  (C7_subscribe_behavior ManagerState.init connS1 subInfoNoId "P" 1).2 rfl rfl

/-! ### C8: reconcile fan-out -/

/-- The operation UUIDs of the operations naming provider `rid`, in
message order. -/
def reconcileGroup (rid : ResourceProviderID)
    (ops : List ReconcileOperation) : List (List Nat) :=
  (ops.filter (fun op => decide (op.resourceProviderId = some rid))).map
    (fun op => op.operationUuid)

theorem reconcileGroup_nil (rid : ResourceProviderID) :
    reconcileGroup rid [] = [] := rfl

theorem reconcileGroup_cons (rid : ResourceProviderID)
    (op : ReconcileOperation) (rest : List ReconcileOperation) :
    reconcileGroup rid (op :: rest) =
      if op.resourceProviderId = some rid
      then op.operationUuid :: reconcileGroup rid rest
      else reconcileGroup rid rest := by
  unfold reconcileGroup
  rw [List.filter_cons]
  by_cases h : op.resourceProviderId = some rid <;> simp [h]

theorem keys_mapUpdateAt {α β : Type} [DecidableEq α] (l : List (α × β))
    (k : α) (f : β → β) :
    (mapUpdateAt l k f).map Prod.fst = l.map Prod.fst := by
  induction l with
  | nil => rfl
  | cons e rest ih =>
    simp only [mapUpdateAt, List.map_cons] at ih ⊢
    by_cases h : e.1 = k <;> simp [h, ih]

theorem alookup_addReconcileOperation
    (events : List (ResourceProviderID × List (List Nat)))
    (rid : ResourceProviderID) (uuid : List Nat) (k : ResourceProviderID) :
    alookup k (addReconcileOperation events rid uuid) =
      if k = rid then
        match alookup rid events with
        | some g => some (g ++ [uuid])
        | none => some [uuid]
      else alookup k events := by
  unfold addReconcileOperation
  cases h : alookup rid events with
  | some g =>
    rw [if_pos (by rfl)]
    rw [alookup_mapUpdateAt, h]
    by_cases hk : k = rid <;> simp [hk]
  | none =>
    rw [if_neg (by simp)]
    by_cases hk : k = rid
    · subst hk
      rw [if_pos rfl, alookup_append_of_none _ _ _ h]
      simp [alookup]
    · rw [if_neg hk]
      cases hv : alookup k events with
      | some v => exact alookup_append_of_some _ _ _ _ hv
      | none =>
        rw [alookup_append_of_none _ _ _ hv]
        have hk2 : ¬ rid = k := fun h2 => hk h2.symm
        simp [alookup, hk2]

theorem addReconcileOperation_keys_nodup
    (events : List (ResourceProviderID × List (List Nat)))
    (rid : ResourceProviderID) (uuid : List Nat)
    (h : (events.map Prod.fst).Nodup) :
    ((addReconcileOperation events rid uuid).map Prod.fst).Nodup := by
  unfold addReconcileOperation
  cases hl : alookup rid events with
  | some g =>
    rw [if_pos (by rfl)]
    rw [keys_mapUpdateAt]
    exact h
  | none =>
    rw [if_neg (by simp)]
    have hmem : rid ∉ events.map Prod.fst := (alookup_eq_none_iff _ _).mp hl
    simp [List.nodup_append, h, hmem]

theorem buildReconcileEvents_keys_nodup (st : ManagerState) :
    ∀ (ops : List ReconcileOperation)
      (events : List (ResourceProviderID × List (List Nat))),
    (events.map Prod.fst).Nodup →
    ((buildReconcileEvents st ops events).map Prod.fst).Nodup := by
  intro ops
  induction ops with
  | nil => exact fun events h => h
  | cons op rest ih =>
    intro events h
    unfold buildReconcileEvents
    cases hp : op.resourceProviderId with
    | none => exact ih events h
    | some rid2 =>
      dsimp only
      by_cases hs : (alookup rid2 st.subscribed).isSome
      · rw [if_pos hs]
        exact ih _ (addReconcileOperation_keys_nodup events rid2 _ h)
      · rw [if_neg hs]
        exact ih events h

theorem buildReconcileEvents_alookup (st : ManagerState) :
    ∀ (ops : List ReconcileOperation)
      (events : List (ResourceProviderID × List (List Nat)))
      (rid : ResourceProviderID),
    alookup rid (buildReconcileEvents st ops events) =
      if (alookup rid st.subscribed).isSome then
        match alookup rid events with
        | some g => some (g ++ reconcileGroup rid ops)
        | none =>
          if reconcileGroup rid ops = [] then none
          else some (reconcileGroup rid ops)
      else alookup rid events := by
  intro ops
  induction ops with
  | nil =>
    intro events rid
    rw [reconcileGroup_nil]
    unfold buildReconcileEvents
    by_cases hs : (alookup rid st.subscribed).isSome
    · rw [if_pos hs]
      cases hv : alookup rid events with
      | some g => simp [hv]
      | none => simp [hv]
    · rw [if_neg hs]
  | cons op rest ih =>
    intro events rid
    unfold buildReconcileEvents
    cases hp : op.resourceProviderId with
    | none =>
      dsimp only
      have hg : reconcileGroup rid (op :: rest) = reconcileGroup rid rest := by
        rw [reconcileGroup_cons, hp]
        simp
      rw [hg]
      exact ih events rid
    | some rid2 =>
      dsimp only
      by_cases hs2 : (alookup rid2 st.subscribed).isSome
      · rw [if_pos hs2]
        rw [ih _ rid]
        by_cases hk : rid2 = rid
        · subst hk
          have hg : reconcileGroup rid2 (op :: rest) =
              op.operationUuid :: reconcileGroup rid2 rest := by
            rw [reconcileGroup_cons, hp]
            simp
          rw [hg]
          rw [if_pos hs2, if_pos hs2]
          rw [alookup_addReconcileOperation, if_pos rfl]
          cases hv : alookup rid2 events with
          | some g =>
            dsimp only
            rw [List.append_assoc]
            rfl
          | none =>
            dsimp only
            rw [if_neg (by simp)]
            rfl
        · have hadd : alookup rid (addReconcileOperation events rid2
              op.operationUuid) = alookup rid events := by
            rw [alookup_addReconcileOperation]
            exact if_neg (fun h2 => hk h2.symm)
          rw [hadd]
          have hg : reconcileGroup rid (op :: rest) = reconcileGroup rid rest := by
            rw [reconcileGroup_cons, hp]
            exact if_neg (fun h2 => hk (Option.some.inj h2))
          rw [hg]
      · rw [if_neg hs2]
        rw [ih events rid]
        by_cases hsr : (alookup rid st.subscribed).isSome
        · have hk : ¬ rid2 = rid := fun h2 => hs2 (by rw [h2]; exact hsr)
          have hg : reconcileGroup rid (op :: rest) = reconcileGroup rid rest := by
            rw [reconcileGroup_cons, hp]
            exact if_neg (fun h2 => hk (Option.some.inj h2))
          rw [hg]
        · rw [if_neg hsr, if_neg hsr]

theorem sendReconcileEvents_alookup :
    ∀ (events : List (ResourceProviderID × List (List Nat)))
      (st : ManagerState),
    (events.map Prod.fst).Nodup →
    ∀ rid,
    alookup rid (sendReconcileEvents st events).subscribed =
      match alookup rid events with
      | none => alookup rid st.subscribed
      | some g => (alookup rid st.subscribed).map
          (fun rp => { rp with
            http := (rp.http.send (Event.reconcileOfferOperations g)).2 })
  | [], st, _, rid => rfl
  | e :: rest, st, hnodup, rid => by
    rw [List.map_cons, List.nodup_cons] at hnodup
    unfold sendReconcileEvents
    rw [sendReconcileEvents_alookup rest _ hnodup.2 rid]
    by_cases hk : e.1 = rid
    · have hrest : alookup rid rest = none := by
        rw [alookup_eq_none_iff]
        rw [← hk]
        exact hnodup.1
      have hev : alookup rid (e :: rest) = some e.2 := by
        simp [alookup, hk]
      rw [hrest, hev, sendToProvider_alookup]
      dsimp only
      rw [if_pos hk.symm, hk]
    · have hev : alookup rid (e :: rest) = alookup rid rest := by
        simp [alookup, hk]
      have hne : ¬ rid = e.1 := fun h2 => hk h2.symm
      rw [hev, sendToProvider_alookup]
      cases hv : alookup rid rest with
      | none =>
        dsimp only
        rw [if_neg hne]
      | some g =>
        dsimp only
        rw [if_neg hne]

theorem sendReconcileEvents_messages :
    ∀ (events : List (ResourceProviderID × List (List Nat)))
      (st : ManagerState),
    (sendReconcileEvents st events).messages = st.messages
  | [], st => rfl
  | e :: rest, st => by
    unfold sendReconcileEvents
    rw [sendReconcileEvents_messages rest _, sendToProvider_messages]

theorem sendReconcileEvents_promises :
    ∀ (events : List (ResourceProviderID × List (List Nat)))
      (st : ManagerState),
    (sendReconcileEvents st events).promises = st.promises
  | [], st => rfl
  | e :: rest, st => by
    unfold sendReconcileEvents
    rw [sendReconcileEvents_promises rest _, sendToProvider_promises]

/-- C8: `reconcileOfferOperations` groups the message operations by
provider ID; each subscribed provider named by at least one operation gets
exactly one `RECONCILE_OFFER_OPERATIONS` event carrying all of its group's
operation UUIDs (written to its stream when open); sessions of providers
named by no operation are untouched, unsubscribed providers stay
unregistered (their operations are dropped), operations without a provider
ID contribute to no group, and the host queue and promise heap are
unchanged. -/
theorem C8_reconcileOfferOperations (st : ManagerState)
    (message : ReconcileOfferOperationsMessage) :
    (∀ rid rp, alookup rid st.subscribed = some rp →
      alookup rid (ResourceProviderManagerProcess.reconcileOfferOperations
        st message).subscribed =
        (if reconcileGroup rid message.operations = [] then some rp
         else some { rp with http := (rp.http.send
           (Event.reconcileOfferOperations
             (reconcileGroup rid message.operations))).2 })) ∧
    (∀ rid, alookup rid st.subscribed = none →
      alookup rid (ResourceProviderManagerProcess.reconcileOfferOperations
        st message).subscribed = none) ∧
    (ResourceProviderManagerProcess.reconcileOfferOperations st
      message).messages = st.messages ∧
    (ResourceProviderManagerProcess.reconcileOfferOperations st
      message).promises = st.promises := by
  have hkeys := buildReconcileEvents_keys_nodup st message.operations [] (by simp)
  refine ⟨?_, ?_, ?_, ?_⟩
  · intro rid rp hrp
    unfold ResourceProviderManagerProcess.reconcileOfferOperations
    rw [sendReconcileEvents_alookup _ st hkeys rid]
    rw [buildReconcileEvents_alookup st message.operations [] rid]
    rw [if_pos (by rw [hrp]; rfl)]
    have hnil : alookup rid ([] : List (ResourceProviderID × List (List Nat))) = none := rfl
    rw [hnil]
    by_cases hg : reconcileGroup rid message.operations = []
    · rw [if_pos hg]
      dsimp only
      rw [if_pos hg, hrp]
    · rw [if_neg hg]
      dsimp only
      rw [if_neg hg, hrp]
      rfl
  · intro rid hnone
    unfold ResourceProviderManagerProcess.reconcileOfferOperations
    rw [sendReconcileEvents_alookup _ st hkeys rid]
    rw [buildReconcileEvents_alookup st message.operations [] rid]
    rw [if_neg (by rw [hnone]; simp)]
    exact hnone
  · exact sendReconcileEvents_messages _ st
  · exact sendReconcileEvents_promises _ st

/-- Reconcile message naming subscribed provider `P` twice, unknown
provider `Z` once, and one operation without a provider ID. -/
def reconcileMsgW : ReconcileOfferOperationsMessage :=
  { operations :=
    [ { resourceProviderId := some "P", operationUuid := [1] },
      { resourceProviderId := some "Z", operationUuid := [2] },
      { resourceProviderId := none, operationUuid := [3] },
      { resourceProviderId := some "P", operationUuid := [4] } ] }

theorem C8_reconcileOfferOperations_witness :
    alookup "P" (ResourceProviderManagerProcess.reconcileOfferOperations
      stAfterFirstSubscribe reconcileMsgW).subscribed =
      (if reconcileGroup "P" reconcileMsgW.operations = [] then some rpP1
       else some { rpP1 with http := (rpP1.http.send
         (Event.reconcileOfferOperations
           (reconcileGroup "P" reconcileMsgW.operations))).2 }) :=
  (C8_reconcileOfferOperations stAfterFirstSubscribe reconcileMsgW).1 "P" rpP1 rfl

/-! ### C9: one session per provider, replacement semantics -/

theorem alookup_failPublishes (ps : List (PromiseId × PromiseState))
    (pids : List PromiseId) (m : String) (pid : PromiseId) :
    alookup pid (failPublishes ps pids m) =
      if pids.contains pid = true then
        (alookup pid ps).map (PromiseState.fail m)
      else alookup pid ps := by
  induction ps with
  | nil =>
    by_cases hc : pids.contains pid = true
    · rw [if_pos hc]
      rfl
    · rw [if_neg hc]
      rfl
  | cons e rest ih =>
    show alookup pid ((if pids.contains e.1 = true
        then (e.1, PromiseState.fail m e.2) else e) :: failPublishes rest pids m) =
      if pids.contains pid = true
      then (alookup pid (e :: rest)).map (PromiseState.fail m)
      else alookup pid (e :: rest)
    by_cases hc2 : pids.contains e.1 = true
    · rw [if_pos hc2]
      show (if e.1 = pid then some (PromiseState.fail m e.2)
        else alookup pid (failPublishes rest pids m)) = _
      by_cases hk : e.1 = pid
      · rw [if_pos hk]
        have hc : pids.contains pid = true := hk ▸ hc2
        rw [if_pos hc]
        have hhead : alookup pid (e :: rest) = some e.2 := by
          show (if e.1 = pid then some e.2 else alookup pid rest) = some e.2
          rw [if_pos hk]
        rw [hhead]
        rfl
      · rw [if_neg hk, ih]
        have hhead : alookup pid (e :: rest) = alookup pid rest := by
          show (if e.1 = pid then some e.2 else alookup pid rest) = _
          rw [if_neg hk]
        rw [hhead]
    · rw [if_neg hc2]
      show (if e.1 = pid then some e.2
        else alookup pid (failPublishes rest pids m)) = _
      by_cases hk : e.1 = pid
      · rw [if_pos hk]
        have hc : ¬ pids.contains pid = true := by
          rw [← hk]
          exact hc2
        rw [if_neg hc]
        have hhead : alookup pid (e :: rest) = some e.2 := by
          show (if e.1 = pid then some e.2 else alookup pid rest) = some e.2
          rw [if_pos hk]
        rw [hhead]
      · rw [if_neg hk, ih]
        have hhead : alookup pid (e :: rest) = alookup pid rest := by
          show (if e.1 = pid then some e.2 else alookup pid rest) = _
          rw [if_neg hk]
        rw [hhead]

theorem putSubscribed_of_some (st : ManagerState) (rid : ResourceProviderID)
    (rp old : ResourceProvider)
    (h : alookup rid st.subscribed = some old) :
    st.putSubscribed rid rp =
      { subscribed := mapValueAt st.subscribed rid rp,
        promises := failPublishes st.promises
          (old.publishes.map (fun e => e.2)) (connectionClosedMessage old.info),
        messages := st.messages,
        terminated := st.terminated ++ [{ old with http := old.http.close }],
        observers := st.observers } := by
  unfold ManagerState.putSubscribed ManagerState.destroy
  rw [h]

/-- C9: in every reachable state the registry holds at most one session
per provider ID, and a subscribe for an already-registered provider ID
replaces the prior session: the new session is registered, the prior
session is destroyed with its writer closed, and each of its pending
publish promises is failed with the connection-closed error. -/
theorem C9_single_session_invariant (st : ManagerState) (h : Reachable st) :
    RegistryWF st ∧
    (∀ (http : HttpConnection) (sub : CallSubscribe)
       (freshId rid : ResourceProviderID) (tag : Nat) (old : ResourceProvider),
      alookup rid st.subscribed = some old →
      http.isOpen = true →
      stringifyId (assignedInfo sub freshId).id = rid →
      RegistryWF (ResourceProviderManagerProcess.subscribe st http sub freshId tag) ∧
      (∃ rp, alookup rid (ResourceProviderManagerProcess.subscribe st http sub
        freshId tag).subscribed = some rp ∧ rp.tag = tag) ∧
      (∃ oldT, oldT ∈ (ResourceProviderManagerProcess.subscribe st http sub
          freshId tag).terminated ∧
        oldT.tag = old.tag ∧ oldT.info = old.info ∧ oldT.http.isOpen = false ∧
        (∀ pid ∈ old.publishes.map Prod.snd,
          alookup pid st.promises = some PromiseState.pending →
          alookup pid (ResourceProviderManagerProcess.subscribe st http sub
            freshId tag).promises = some (PromiseState.failed
              (connectionClosedMessage old.info))))) := by
  refine ⟨reachable_registryWF h, ?_⟩
  intro http sub freshId rid tag old hold hopen hrid
  have hwf := reachable_registryWF h
  have hsub1 : ResourceProviderManagerProcess.subscribe st http sub freshId tag =
      ({ st with observers := st.observers ++ [rid] } : ManagerState).putSubscribed rid
        { tag := tag, info := assignedInfo sub freshId,
          http := { http with written := http.written ++ [Event.subscribed rid] },
          publishes := [] } := by
    rw [subscribe_eq, if_pos hopen, hrid]
  have hput := putSubscribed_of_some
    ({ st with observers := st.observers ++ [rid] } : ManagerState) rid
    { tag := tag, info := assignedInfo sub freshId,
      http := { http with written := http.written ++ [Event.subscribed rid] },
      publishes := [] } old hold
  refine ⟨subscribe_registryWF st http sub freshId tag hwf, ?_, ?_⟩
  · refine ⟨
      { tag := tag, info := assignedInfo sub freshId,
        http := { http with written := http.written ++ [Event.subscribed rid] },
        publishes := [] }, ?_, rfl⟩
    rw [hsub1, putSubscribed_alookup, if_pos rfl]
  · refine ⟨({ old with http := old.http.close } : ResourceProvider),
      ?_, rfl, rfl, rfl, ?_⟩
    · rw [hsub1, hput]
      simp
    · intro pid hpid hpending
      rw [hsub1, hput]
      show alookup pid (failPublishes st.promises
        (old.publishes.map (fun e => e.2)) (connectionClosedMessage old.info)) = _
      rw [alookup_failPublishes,
        if_pos (List.elem_eq_true_of_mem hpid), hpending]
      rfl

/-- A well-formed subscribe request for `subInfoNoId` accepting JSON. -/
def reqSubP : Request :=
  { method := "POST", headers := [("Content-Type", APPLICATION_JSON)],
    pbParse := none, jsonParse := .parsed callSubscribeNoId,
    acceptsJson := true, acceptsProtobuf := false }

theorem reachable_stAfterFirstSubscribe : Reachable stAfterFirstSubscribe :=
  Relation.ReflTransGen.single
    (Step.api ManagerState.init reqSubP "S1" "P" 1
      (Response.okStreaming
        [("Content-Type", stringifyContentType ContentType.json),
         ("Mesos-Stream-Id", "S1")])
      stAfterFirstSubscribe rfl)

theorem C9_single_session_invariant_witness :
    RegistryWF (ResourceProviderManagerProcess.subscribe stAfterFirstSubscribe
      connS2 subInfoP "Q" 2) ∧
    (∃ rp, alookup "P" (ResourceProviderManagerProcess.subscribe
      stAfterFirstSubscribe connS2 subInfoP "Q" 2).subscribed = some rp ∧
      rp.tag = 2) ∧
    (∃ oldT, oldT ∈ (ResourceProviderManagerProcess.subscribe
        stAfterFirstSubscribe connS2 subInfoP "Q" 2).terminated ∧
      oldT.tag = rpP1.tag ∧ oldT.info = rpP1.info ∧ oldT.http.isOpen = false ∧
      (∀ pid ∈ rpP1.publishes.map Prod.snd,
        alookup pid stAfterFirstSubscribe.promises = some PromiseState.pending →
        alookup pid (ResourceProviderManagerProcess.subscribe
          stAfterFirstSubscribe connS2 subInfoP "Q" 2).promises =
          some (PromiseState.failed (connectionClosedMessage rpP1.info)))) :=
  (C9_single_session_invariant stAfterFirstSubscribe
    reachable_stAfterFirstSubscribe).2 connS2 subInfoP "Q" "P" 2 rpP1
    rfl rfl rfl
